import Mathlib

/-!
Verification of the citycast urlparser event-extraction pipeline.

This file gives a shallow embedding, in Lean, of the pure extraction and
merge logic of `src/url_parser.py` and `src/adapters/timely.py`, and proves
or refutes a fixed list of claims about that code.

Modelling conventions:
* Python strings are Lean `String`s; Python `None`-or-string values are
  `Option String`; Python truthiness of such a value is `truthyS`.
* Parsed JSON values are the inductive `JsonValue`; code that can raise a
  Python exception is modelled with `Except String`.
* DOM queries made through BeautifulSoup, the `search_dates` function of
  the dateparser library and the output of the extruct library are
  oracles: they are inputs (fields of `Soup`, or an explicit function
  argument), while every piece of logic written in the repository itself
  is embedded as executable Lean code.
* Recursions that are not structural (the breadth-first JSON-LD queue
  scan, string replacement and tag scanning) are written with an explicit
  fuel argument so that they compute in the kernel; the fuel passed at
  every call site (the structural size `jSize` of the traversed value, or
  the input length) dominates the number of steps the Python loop
  performs, so the embedded function never exhausts its fuel.
-/

/-! ## Python string primitives -/

/-- Characters treated as whitespace by Python's `str.strip`, `str.split`
and the `\s` regex class, restricted to the code points that occur in this
code base (ASCII whitespace plus the non-breaking space). -/
def pyWsChar (c : Char) : Bool :=
  c = ' ' || c = '\t' || c = '\n' || c = '\r' ||
  c = '\x0b' || c = '\x0c' || c = '\u00A0'

/-- Python `str.strip()` on the character list. -/
def pyStripL (l : List Char) : List Char :=
  ((l.dropWhile pyWsChar).reverse.dropWhile pyWsChar).reverse

/-- Python `str.strip()`. -/
def pyStrip (s : String) : String :=
  String.mk (pyStripL s.data)

/-- Helper for `pyWords`: accumulate the current (reversed) word while
scanning the input once. -/
def pyWordsGo (cur : List Char) : List Char → List (List Char)
  | [] => if cur.isEmpty then [] else [cur.reverse]
  | c :: cs =>
    if pyWsChar c then
      if cur.isEmpty then pyWordsGo [] cs else cur.reverse :: pyWordsGo [] cs
    else
      pyWordsGo (c :: cur) cs

/-- Python `str.split()` with no argument: the whitespace-separated words. -/
def pyWords (s : String) : List (List Char) :=
  pyWordsGo [] s.data

/-- Collapse every whitespace run to a single space and trim both ends.
This is the composite effect of `re.sub(r"\s+", " ", s).strip()`, of the
pair of substitutions in `clean_whitespace`, and of
`" ".join(s.split()).strip()` in the Timely adapter: all three produce the
whitespace-separated words joined by single spaces. -/
def collapseWS (s : String) : String :=
  String.intercalate " " ((pyWords s).map String.mk)

/-- Boolean prefix test on character lists. -/
def prefixB : List Char → List Char → Bool
  | [], _ => true
  | _ :: _, [] => false
  | a :: as, b :: bs => a = b && prefixB as bs

/-- Boolean infix (substring) test on character lists; `prefixB` checked at
every suffix, which is the semantics of Python's `needle in hay`. -/
def infixB (needle : List Char) : List Char → Bool
  | [] => needle.isEmpty
  | c :: cs => prefixB needle (c :: cs) || infixB needle cs

/-- Python `needle in hay` on strings. -/
def pyIn (needle hay : String) : Bool :=
  infixB needle.data hay.data

/-- Python `s.startswith(pre)`. -/
def pyStartsWith (s pre : String) : Bool :=
  prefixB pre.data s.data

/-- Python `str.lower()`, ASCII case folding (the only case that occurs in
the strings this code inspects). -/
def pyLower (s : String) : String :=
  String.mk (s.data.map Char.toLower)

/-- One left-to-right, non-overlapping pass of Python
`s.replace(pat, rep)`, on character lists, with fuel (the length of `s`
bounds the number of steps). -/
def replaceAllFuel (pat rep : List Char) : Nat → List Char → List Char
  | _, [] => []
  | 0, s => s
  | fuel + 1, c :: cs =>
    if pat ≠ [] && prefixB pat (c :: cs) then
      rep ++ replaceAllFuel pat rep fuel ((c :: cs).drop pat.length)
    else
      c :: replaceAllFuel pat rep fuel cs

/-- Python `s.replace(pat, rep)` for a non-empty pattern. -/
def pyReplace (s pat rep : String) : String :=
  String.mk (replaceAllFuel pat.data rep.data s.data.length s.data)

/-- Python truthiness of an optional string: `None` and `""` are falsy. -/
def truthyS : Option String → Bool
  | none => false
  | some s => s ≠ ""

/-- Python `a or b` for optional strings: `b` whenever `a` is falsy. -/
def pyOr (a b : Option String) : Option String :=
  if truthyS a then a else b

/-! ## Parsed JSON values -/

/-- A parsed JSON document (the result of `json.loads`); numbers are
modelled as integers, which covers every value this code inspects. -/
inductive JsonValue where
  | null
  | bool (b : Bool)
  | num (n : Int)
  | str (s : String)
  | arr (xs : List JsonValue)
  | obj (kvs : List (String × JsonValue))

/-- Python truthiness of a parsed JSON value. -/
def jTruthy : JsonValue → Bool
  | .null => false
  | .bool b => b
  | .num n => n ≠ 0
  | .str s => s ≠ ""
  | .arr xs => !xs.isEmpty
  | .obj kvs => !kvs.isEmpty

/-- First value bound to a key in an object's entry list (Python dicts
resulting from `json.loads` have unique keys, so first-match lookup is
exact). -/
def jLookup (kvs : List (String × JsonValue)) (k : String) : Option JsonValue :=
  (kvs.find? (fun p => p.1 = k)).map (·.2)

/-- Python `d.get(k)` on a JSON object: `None` when the key is absent. -/
def jGet (v : JsonValue) (k : String) : JsonValue :=
  match v with
  | .obj kvs => (jLookup kvs k).getD .null
  | _ => .null

/-- The string bound to a key, when the bound value is a JSON string; this
models the assignments of the pipeline, which are only meaningful (and only
exercised in this development) on string-valued fields. A truthy non-string
value stored into a text field makes the real pipeline crash in its final
normalization pass and is out of the modelled scope. -/
def jStrField (v : JsonValue) (k : String) : Option String :=
  match jGet v k with
  | .str s => some s
  | _ => none

/-- Python `a or b` on JSON values (first truthy operand, else `b`). -/
def jPyOr (a b : JsonValue) : JsonValue :=
  if jTruthy a then a else b

mutual

/-- Rendering of Python `repr` for parsed-JSON values (`str(x)` delegates
to `repr` inside containers). -/
def pyRepr : JsonValue → String
  | .null => "None"
  | .bool true => "True"
  | .bool false => "False"
  | .num n => toString n
  | .str s => "\x27" ++ s ++ "\x27"
  | .arr xs => "[" ++ pyReprList xs ++ "]"
  | .obj kvs => "\x7b" ++ pyReprEntries kvs ++ "\x7d"

/-- Comma-joined `repr`s of a list's elements. -/
def pyReprList : List JsonValue → String
  | [] => ""
  | [v] => pyRepr v
  | v :: rest => pyRepr v ++ ", " ++ pyReprList rest

/-- Comma-joined `repr`s of a dict's entries. -/
def pyReprEntries : List (String × JsonValue) → String
  | [] => ""
  | [(k, v)] => "\x27" ++ k ++ "\x27: " ++ pyRepr v
  | (k, v) :: rest => "\x27" ++ k ++ "\x27: " ++ pyRepr v ++ ", " ++ pyReprEntries rest

end

/-- Python `str(x)` for a parsed JSON value: the string itself for
strings, the `repr` rendering otherwise. -/
def pyStr (v : JsonValue) : String :=
  match v with
  | .str s => s
  | v => pyRepr v

/-! ## ISO-8601 date-times

`normalize_iso_no_tz` and `to_naive_iso` in `src/url_parser.py` rely on
`dateutil.parser.isoparse` and `datetime.isoformat`.  The parser below
models `isoparse` restricted to the extended format
`YYYY-MM-DD[<sep>HH:MM:SS[.ffffff][Z|±HH[:MM]|±HHMM]]` with a four-digit
year; like the real parser, the single separator between date and time may
be any character, a trailing separator with no time is an error, and a
day-only string parses to midnight.  Short forms (`YYYY`, `YYYY-MM`,
basic-format digits, week dates, partial times, comma fractions) are
outside the modelled subset: every concrete string evaluated by a theorem
in this file behaves identically under the real parser. -/

/-- A parsed date-time: the wall-clock components plus an optional UTC
offset in minutes (`datetime.tzinfo`). -/
structure IsoDT where
  year : Nat
  month : Nat
  day : Nat
  hour : Nat
  minute : Nat
  second : Nat
  micro : Nat
  tzMin : Option Int
deriving Repr, DecidableEq

/-- Digit character for `d < 10`. -/
def dch (d : Nat) : Char :=
  Char.ofNat (48 + d)

/-- Read one decimal digit. -/
def readDigit (c : Char) : Option Nat :=
  if 48 ≤ c.toNat && c.toNat ≤ 57 then some (c.toNat - 48) else none

/-- Read a two-digit number. -/
def read2 (a b : Char) : Option Nat :=
  match readDigit a, readDigit b with
  | some x, some y => some (10 * x + y)
  | _, _ => none

/-- Read a four-digit number. -/
def read4 (a b c d : Char) : Option Nat :=
  match readDigit a, readDigit b, readDigit c, readDigit d with
  | some x, some y, some z, some w => some (1000 * x + 100 * y + 10 * z + w)
  | _, _, _, _ => none

/-- Two-digit zero-padded rendering (`%02d` for values below 100). -/
def pad2L (n : Nat) : List Char :=
  [dch (n / 10 % 10), dch (n % 10)]

/-- Four-digit zero-padded rendering (`%04d` for values below 10000;
`datetime` years never exceed 9999). -/
def pad4L (n : Nat) : List Char :=
  [dch (n / 1000 % 10), dch (n / 100 % 10), dch (n / 10 % 10), dch (n % 10)]

/-- Character list of `datetime.isoformat()` for a microsecond-zero naive
date-time: `YYYY-MM-DDTHH:MM:SS`. -/
def renderNaiveL (dt : IsoDT) : List Char :=
  pad4L dt.year ++ '-' :: pad2L dt.month ++ '-' :: pad2L dt.day ++
  'T' :: pad2L dt.hour ++ ':' :: pad2L dt.minute ++ ':' :: pad2L dt.second

/-- `datetime.isoformat()` for a microsecond-zero naive date-time. -/
def renderNaive (dt : IsoDT) : String :=
  String.mk (renderNaiveL dt)

/-- Microseconds denoted by a fraction's digit list (at most the first six
digits are significant). -/
def fracMicro (ds : List Nat) : Nat :=
  ((ds.take 6) ++ List.replicate (6 - ds.length) 0).foldl (fun acc d => 10 * acc + d) 0

/-- Parse the time-zone suffix: empty, `Z`/`z`, or a signed offset
`±HH`, `±HH:MM`, `±HHMM` with bounded fields. -/
def parseTzSuffix (l : List Char) : Option (Option Int) :=
  match l with
  | [] => some none
  | [c] =>
    if c = 'Z' || c = 'z' then some (some 0) else none
  | s :: rest =>
    if s = '+' || s = '-' then
      let sign : Int := if s = '+' then 1 else -1
      match rest with
      | [a, b] =>
        match read2 a b with
        | some hh => if hh ≤ 23 then some (some (sign * (hh * 60))) else none
        | none => none
      | [a, b, c, d] =>
        if c = ':' then none
        else
          match read2 a b, read2 c d with
          | some hh, some mm =>
            if hh ≤ 23 && mm ≤ 59 then some (some (sign * (hh * 60 + mm))) else none
          | _, _ => none
      | [a, b, c, d, e] =>
        if c = ':' then
          match read2 a b, read2 d e with
          | some hh, some mm =>
            if hh ≤ 23 && mm ≤ 59 then some (some (sign * (hh * 60 + mm))) else none
          | _, _ => none
        else none
      | _ => none
    else none

/-- Parse the optional fraction and time-zone suffix after the seconds. -/
def parseFracTz (y mo da hh mi ss : Nat) (l : List Char) : Option IsoDT :=
  match l with
  | [] => some ⟨y, mo, da, hh, mi, ss, 0, none⟩
  | c :: rest =>
    if c = '.' then
      let ds := rest.takeWhile (fun d => (readDigit d).isSome)
      let tzPart := rest.dropWhile (fun d => (readDigit d).isSome)
      if ds.isEmpty then none
      else
        match parseTzSuffix tzPart with
        | some tz => some ⟨y, mo, da, hh, mi, ss, fracMicro (ds.filterMap readDigit), tz⟩
        | none => none
    else
      match parseTzSuffix (c :: rest) with
      | some tz => some ⟨y, mo, da, hh, mi, ss, 0, tz⟩
      | none => none

/-- Parse the time component `HH:MM:SS` followed by the optional fraction
and time zone. -/
def parseTimePart (y mo da : Nat) (l : List Char) : Option IsoDT :=
  match l with
  | d1 :: d2 :: k1 :: e1 :: e2 :: k2 :: f1 :: f2 :: rest =>
    if k1 = ':' && k2 = ':' then
      match read2 d1 d2, read2 e1 e2, read2 f1 f2 with
      | some hh, some mi, some ss =>
        if hh ≤ 23 && mi ≤ 59 && ss ≤ 59 then parseFracTz y mo da hh mi ss rest
        else none
      | _, _, _ => none
    else none
  | _ => none

/-- Parse a full ISO-8601 date-time from a character list (see the module
comment above for the modelled subset of `isoparse`). -/
def isoparseChars (l : List Char) : Option IsoDT :=
  match l with
  | a1 :: a2 :: a3 :: a4 :: h1 :: b1 :: b2 :: h2 :: c1 :: c2 :: rest =>
    if h1 = '-' && h2 = '-' then
      match read4 a1 a2 a3 a4, read2 b1 b2, read2 c1 c2 with
      | some y, some mo, some da =>
        if 1 ≤ mo && mo ≤ 12 && 1 ≤ da && da ≤ 31 then
          match rest with
          | [] => some ⟨y, mo, da, 0, 0, 0, 0, none⟩
          | _sep :: timeRest => parseTimePart y mo da timeRest
        else none
      | _, _, _ => none
    else none
  | _ => none

/-- The modelled `dateutil.parser.isoparse`, as a total function returning
`none` where the real parser raises. -/
def isoparse? (s : String) : Option IsoDT :=
  isoparseChars s.data

/-- Embeds `to_naive_iso` (src/url_parser.py:260-264): drop the offset,
zero the microseconds, re-serialize. -/
def to_naive_iso (dt : IsoDT) : String :=
  renderNaive { dt with micro := 0, tzMin := none }

/-- Embeds `normalize_iso_no_tz` (src/url_parser.py:242-250): `None` for a
falsy or absent value, the re-serialized naive date-time when `isoparse`
succeeds, the trimmed original (or `None` when empty) when it fails. -/
def normalize_iso_no_tz (s : Option String) : Option String :=
  match s with
  | none => none
  | some s =>
    if s = "" then none
    else
      match isoparse? s with
      | some dt => some (to_naive_iso dt)
      | none =>
        let t := pyStrip s
        if t = "" then none else some t

/-- Embeds `clean_whitespace` (src/url_parser.py:252-258): replace
non-breaking spaces, collapse whitespace runs, trim, `None` when empty. -/
def clean_whitespace (s : Option String) : Option String :=
  match s with
  | none => none
  | some s =>
    if s = "" then none
    else
      let s1 := pyReplace s "\u00A0" " "
      let t := collapseWS s1
      if t = "" then none else some t

/-! ## The Timely adapter (src/adapters/timely.py) -/

/-- One pass of `re.sub(r"<[^>]+>", "", s)`: at a `<`, the match runs to
the first following `>` and needs at least one character in between;
without a match the `<` is kept and scanning resumes at the next
character. Fuel is the input length. -/
def removeTagsFuel : Nat → List Char → List Char
  | 0, s => s
  | _, [] => []
  | fuel + 1, c :: cs =>
    if c = '<' then
      let inner := cs.takeWhile (fun d => d ≠ '>')
      let rest := cs.dropWhile (fun d => d ≠ '>')
      if inner.isEmpty then
        c :: removeTagsFuel fuel cs
      else
        match rest with
        | _ :: r => removeTagsFuel fuel r
        | [] => c :: removeTagsFuel fuel cs
    else c :: removeTagsFuel fuel cs

/-- Strip HTML tag runs, as `_TAG_RE.sub("", s)` does. -/
def removeTags (s : String) : String :=
  String.mk (removeTagsFuel s.data.length s.data)

/-- Single left-to-right pass of Python `html.unescape`, restricted to the
five basic character references with their closing semicolon
(`&amp;` `&lt;` `&gt;` `&quot;` `&#39;`); like the real function it never
re-scans replaced text, and a string without an ampersand is returned
unchanged. Other references are outside the modelled subset and no string
evaluated by a theorem in this file contains one. -/
def unescapeFuel : Nat → List Char → List Char
  | 0, s => s
  | _, [] => []
  | fuel + 1, c :: cs =>
    if c = '&' then
      if prefixB "amp;".data cs then '&' :: unescapeFuel fuel (cs.drop 4)
      else if prefixB "lt;".data cs then '<' :: unescapeFuel fuel (cs.drop 3)
      else if prefixB "gt;".data cs then '>' :: unescapeFuel fuel (cs.drop 3)
      else if prefixB "quot;".data cs then '"' :: unescapeFuel fuel (cs.drop 5)
      else if prefixB "#39;".data cs then '\x27' :: unescapeFuel fuel (cs.drop 4)
      else c :: unescapeFuel fuel cs
    else c :: unescapeFuel fuel cs

/-- Python `html.unescape` (modelled subset). -/
def html_unescape (s : String) : String :=
  String.mk (unescapeFuel s.data.length s.data)

/-- Embeds `_clean_text` (src/adapters/timely.py:13-18) applied to a
parsed-JSON value, with Python's dynamic behavior: a falsy argument gives
`None`, a truthy string is unescaped, tag-stripped and
whitespace-collapsed (`or None`), and a truthy non-string raises a
`TypeError` inside `html.unescape` or `re.sub`. -/
def cleanTextJ (v : JsonValue) : Except String (Option String) :=
  if !jTruthy v then .ok none
  else
    match v with
    | .str s =>
      let s1 := html_unescape s
      let s2 := removeTags s1
      let s3 := collapseWS s2
      .ok (if s3 = "" then none else some s3)
    | _ => .error "TypeError"

/-- Python `x.get(k)`: succeeds only when `x` is a dict; on any other
value the attribute access raises `AttributeError`. -/
def pyDictGet (v : JsonValue) (k : String) : Except String JsonValue :=
  match v with
  | .obj kvs => .ok ((jLookup kvs k).getD .null)
  | _ => .error "AttributeError"

/-- Embeds the Timely adapter's `extract_event`
(src/adapters/timely.py:20-25): `d = (payload or \x7b\x7d).get("data") or \x7b\x7d`,
then the cleaned `title` and `description_short` fields. An exception
raised by the Python code is the `.error` case. -/
def extract_event (payload : JsonValue) :
    Except String (Option String × Option String) := do
  let base := jPyOr payload (.obj [])
  let dataRaw ← pyDictGet base "data"
  let d := jPyOr dataRaw (.obj [])
  let tRaw ← pyDictGet d "title"
  let title ← cleanTextJ tRaw
  let dRaw ← pyDictGet d "description_short"
  let desc ← cleanTextJ dRaw
  return (title, desc)

/-! ## Blocked-page detection and the fetch strategy (src/url_parser.py) -/

/-- Embeds `BLOCKED_KEYWORDS` (src/url_parser.py:19-24). -/
def BLOCKED_KEYWORDS : List String :=
  ["identity verified", "verify your identity", "are you a real fan",
   "just a moment"]

/-- The anti-bot signal phrases of `looks_blocked` (src/url_parser.py:131-135). -/
def blockedSignals : List String :=
  ["403 error", "request could not be satisfied", "access denied",
   "cloudfront", "akamai", "bot detection", "captcha", "incapsula",
   "verify that you\x27re not a robot", "javascript is disabled", "aws waf"]

/-- Embeds `looks_blocked` (src/url_parser.py:129-136): any signal phrase
occurs in the lower-cased HTML, or the stripped HTML is shorter than 1200
characters. -/
def looks_blocked (html : String) : Bool :=
  let h := pyLower html
  blockedSignals.any (fun s => pyIn s h) || decide ((pyStrip html).length < 1200)

/-- Outcome of `fetch_with_requests` (src/url_parser.py:139-150): a status
code and body, or a network error raised by `requests` (the function has
no exception handler). -/
inductive HttpResult where
  | ok (status : Nat) (html : String)
  | netError
deriving Repr, DecidableEq

/-- The `fragment` component of `urllib.parse.urlsplit`: everything after
the first `#`, empty when there is none. -/
def urlFragment (url : String) : String :=
  match url.data.dropWhile (fun c => c ≠ '#') with
  | [] => ""
  | _ :: rest => String.mk rest

/-- Partial fields captured by a network-JSON adapter during the browser
fetch (the dict stored into `extracted` by `PlaywrightSession.fetch`). -/
structure PartialFields where
  title : Option String := none
  description : Option String := none
  start_date : Option String := none
  end_date : Option String := none
  location : Option String := none
  image : Option String := none
deriving Repr, DecidableEq

/-- The record produced per URL (src/url_parser.py:28-37). -/
structure EventCard where
  url : String
  title : Option String := none
  description : Option String := none
  start_date : Option String := none
  end_date : Option String := none
  location : Option String := none
  image : Option String := none
  source : Option String := none
deriving Repr, DecidableEq

/-- Embeds the fetch-strategy step of `parse_event`
(src/url_parser.py:477-485). `browserFetch` is what `pw.fetch(url)` would
return (final HTML and optionally adapter-captured fields). The HTTP GET
is issued before the branch, so a network error propagates regardless of
the fragment check; escalation to the browser happens on a fragment, a
403/429 status, or blocked-looking HTML. -/
def fetchStrategy (url : String) (httpRes : HttpResult)
    (browserFetch : String × Option PartialFields) :
    Except String (String × Option PartialFields × String) :=
  match httpRes with
  | .netError => .error "requests.RequestException"
  | .ok status reqHtml =>
    if urlFragment url ≠ "" || status = 403 || status = 429 || looks_blocked reqHtml then
      .ok (browserFetch.1, browserFetch.2, "playwright")
    else
      .ok (reqHtml, none, "requests")

/-! ## JSON-LD extraction (src/url_parser.py:152-183) -/

mutual

/-- Structural size of a JSON value, bounding the number of nodes any
traversal can visit. -/
def jSize : JsonValue → Nat
  | .null => 1
  | .bool _ => 1
  | .num _ => 1
  | .str _ => 1
  | .arr xs => 1 + jSizeList xs
  | .obj kvs => 1 + jSizeEntries kvs

/-- Total size of a list of JSON values. -/
def jSizeList : List JsonValue → Nat
  | [] => 0
  | v :: rest => jSize v + jSizeList rest

/-- Total size of a dict's entries. -/
def jSizeEntries : List (String × JsonValue) → Nat
  | [] => 0
  | (_, v) :: rest => jSize v + jSizeEntries rest

end

/-- The `@type` test of `extract_from_ld_json`: take `item["@type"]`, for a
list take its first member whose `str` rendering contains `"Event"`, then
require a truthy result whose `str` rendering contains `"Event"`. -/
def ldEventType (item : JsonValue) : Bool :=
  let t := jGet item "@type"
  let t2 :=
    match t with
    | .arr xs => (xs.find? (fun x => pyIn "Event" (pyStr x))).getD .null
    | _ => t
  jTruthy t2 && pyIn "Event" (pyStr t2)

/-- The breadth-first queue scan of `extract_from_ld_json`: pop an item,
append its `@graph` list (when the item is a dict carrying one) to the
queue, skip non-dicts, and return the first dict whose `@type` matches
`"Event"`. Each step removes an item of size at least one and appends
children of strictly smaller total size, so the total `jSize` of the queue
strictly decreases and bounds the number of steps: fuel that large is
never exhausted. -/
def scanLdQueue : Nat → List JsonValue → Option JsonValue
  | 0, _ => none
  | _, [] => none
  | fuel + 1, item :: rest =>
    let rest2 :=
      match item with
      | .obj kvs =>
        match jLookup kvs "@graph" with
        | some (.arr g) => rest ++ g
        | _ => rest
      | _ => rest
    match item with
    | .obj kvs => if ldEventType (.obj kvs) then some (.obj kvs) else scanLdQueue fuel rest2
    | _ => scanLdQueue fuel rest2

/-- Embeds `extract_from_ld_json` (src/url_parser.py:152-183). Each
`application/ld+json` script block is an oracle input: `none` stands for a
block whose text is empty or fails `json.loads`, `some data` for a parsed
one. The first block containing an Event-typed node wins; `none` is the
function's `\x7b\x7d` result. -/
def extract_from_ld_json : List (Option JsonValue) → Option JsonValue
  | [] => none
  | none :: rest => extract_from_ld_json rest
  | some data :: rest =>
    let queue := match data with | .arr xs => xs | _ => [data]
    match scanLdQueue (jSize data) queue with
    | some item => some item
    | none => extract_from_ld_json rest

/-- Embeds `format_address` (src/url_parser.py:229-240): a string is
trimmed (`or None`); a dict contributes `str(v).strip()` for each truthy
value of the five schema.org keys, the non-empty parts joined by `", "`
(`or None`); anything else is `None`. -/
def format_address (addr : JsonValue) : Option String :=
  match addr with
  | .str s => if pyStrip s = "" then none else some (pyStrip s)
  | .obj kvs =>
    let keys := ["streetAddress", "addressLocality", "addressRegion",
                 "postalCode", "addressCountry"]
    let parts := (keys.map (fun k => (jLookup kvs k).getD .null)).filter jTruthy
      |>.map (fun v => pyStrip (pyStr v))
    let parts2 := parts.filter (fun p => p ≠ "")
    if parts2.isEmpty then none else some (String.intercalate ", " parts2)
  | _ => none

/-! ## Embedded framework JSON (src/url_parser.py:298-443) -/

/-- The key test of `_find_first_event_like_object`: a name/title key plus
either a time key or a location/venue key. -/
def eventLikeKeys (kvs : List (String × JsonValue)) : Bool :=
  let hasKey := fun k => kvs.any (fun p => p.1 = k)
  let hasTitle := hasKey "name" || hasKey "title"
  let hasAnyTime := hasKey "startDate" || hasKey "endDate" ||
    hasKey "start_date" || hasKey "end_date" || (hasKey "start" && hasKey "end")
  let hasLocationHint := hasKey "venue" || hasKey "location"
  hasTitle && (hasAnyTime || hasLocationHint)

mutual

/-- Embeds `_find_first_event_like_object` (src/url_parser.py:329-356):
depth-first, checking a dict itself before its values (in entry order),
then list elements in order. -/
def findFirstEventLike : JsonValue → Option JsonValue
  | .obj kvs =>
    if eventLikeKeys kvs then some (.obj kvs) else findFirstEventLikeEntries kvs
  | .arr xs => findFirstEventLikeList xs
  | _ => none

/-- Depth-first search over a dict's values. -/
def findFirstEventLikeEntries : List (String × JsonValue) → Option JsonValue
  | [] => none
  | (_, v) :: rest =>
    match findFirstEventLike v with
    | some hit => some hit
    | none => findFirstEventLikeEntries rest

/-- Depth-first search over a list's elements. -/
def findFirstEventLikeList : List JsonValue → Option JsonValue
  | [] => none
  | v :: rest =>
    match findFirstEventLike v with
    | some hit => some hit
    | none => findFirstEventLikeList rest

end

/-- A JSON value as an optional string, the `isinstance(v, str)` filter of
`_pick_first_str`. -/
def jOptStr : JsonValue → Option String
  | .str s => some s
  | _ => none

/-- Embeds `_pick_first_str` (src/url_parser.py:428-432) over optional
strings: the first whose trim is non-empty, trimmed. -/
def pickFirstStrO : List (Option String) → Option String
  | [] => none
  | none :: rest => pickFirstStrO rest
  | some s :: rest =>
    if pyStrip s ≠ "" then some (pyStrip s) else pickFirstStrO rest

/-- Embeds `_nested_str_any` (src/url_parser.py:435-443): walk the key
path through nested dicts, returning the trimmed final value when it is a
string with non-empty trim. -/
def nestedStrAny : JsonValue → List String → Option String
  | cur, [] =>
    match cur with
    | .str s => if pyStrip s ≠ "" then some (pyStrip s) else none
    | _ => none
  | cur, k :: ks =>
    match cur with
    | .obj kvs => nestedStrAny ((jLookup kvs k).getD .null) ks
    | _ => none

/-- Embeds `_stringify_location_generic` (src/url_parser.py:394-425). -/
def stringifyLocationGeneric (venue : JsonValue) : Option String :=
  match venue with
  | .str s => clean_whitespace (some s)
  | .obj kvs =>
    let nameParts :=
      match jLookup kvs "name" with
      | some (.str s) => if pyStrip s ≠ "" then [pyStrip s] else []
      | _ => []
    let address := jPyOr ((jLookup kvs "address").getD .null)
      (jPyOr ((jLookup kvs "address_display").getD .null)
        (jPyOr ((jLookup kvs "venue_address").getD .null) (.obj [])))
    let addrParts :=
      match address with
      | .str s =>
        -- a truthy trimmed string is appended through `clean_whitespace`,
        -- which is non-empty exactly when the trim is
        if pyStrip s ≠ "" then [(clean_whitespace (some s)).getD ""] else []
      | .obj akvs =>
        let keys := ["address_1", "address_2", "city", "region", "postal_code",
                     "country", "streetAddress", "addressLocality",
                     "addressRegion", "postalCode", "addressCountry"]
        (keys.filterMap (fun k =>
          match jLookup akvs k with
          | some (.str s) => if pyStrip s ≠ "" then some (pyStrip s) else none
          | _ => none))
      | _ => []
    let parts := nameParts ++ addrParts
    if parts.isEmpty then none else some (String.intercalate ", " parts)
  | _ => none

/-- Embeds `_normalize_event_like_object` (src/url_parser.py:359-391). -/
def normalizeEventLikeObject (e : JsonValue) : PartialFields :=
  let img := jPyOr (jGet e "image")
    (jPyOr (jGet e "logo") (jPyOr (jGet e "primary_image") (jGet e "image_url")))
  { title := pickFirstStrO [jOptStr (jGet e "name"), jOptStr (jGet e "title")]
    description := pickFirstStrO [jOptStr (jGet e "summary"), jOptStr (jGet e "description")]
    start_date := pickFirstStrO
      [jOptStr (jGet e "start_date"), jOptStr (jGet e "startDate"),
       nestedStrAny e ["start", "utc"], nestedStrAny e ["start", "local"],
       nestedStrAny e ["start", "date"], nestedStrAny e ["start", "date_time"]]
    end_date := pickFirstStrO
      [jOptStr (jGet e "end_date"), jOptStr (jGet e "endDate"),
       nestedStrAny e ["end", "utc"], nestedStrAny e ["end", "local"],
       nestedStrAny e ["end", "date"], nestedStrAny e ["end", "date_time"]]
    location := stringifyLocationGeneric
      (jPyOr (jGet e "venue") (jPyOr (jGet e "location")
        (jPyOr (jGet e "venue_data") (.obj []))))
    image :=
      match img with
      | .obj _ => pickFirstStrO
          [jOptStr (jGet img "url"), jOptStr (jGet img "original"),
           jOptStr (jGet img "crop_mask")]
      | .str s => if pyStrip s ≠ "" then some (pyStrip s) else none
      | _ => none }

/-- Embeds `extract_from_next_data_generic` (src/url_parser.py:308-326).
The `__NEXT_DATA__` script body is an oracle input (`none`: tag absent,
empty, or `json.loads` failure); `none` out is the function's `\x7b\x7d`. -/
def extract_from_next_data_generic (nextData : Option JsonValue) : Option PartialFields :=
  match nextData with
  | none => none
  | some data =>
    match findFirstEventLike data with
    | none => none
    | some e => some (normalizeEventLikeObject e)

/-! ## The parsed page as an oracle -/

/-- The queries `parse_event` and its helpers make against the parsed
HTML. DOM parsing itself (BeautifulSoup) is not embeddable, so each query
result is an input; all logic applied to these results is embedded code.
Field conventions: an outer `none` means the queried element is absent;
`metaProp p` / `metaName p` model `soup.find("meta", ...)` for property
`p` (`some none`: a tag without a `content` attribute); `containerText` is
`container.get_text(" ", strip=True)` of the main-content container of
`extract_main_text` after the decompose step; `extructJsonLd` is the
`"json-ld"` list of `extruct.extract`. -/
structure Soup where
  ldJsonBlocks : List (Option JsonValue) := []
  nextData : Option JsonValue := none
  metaProp : String → Option (Option String) := fun _ => none
  metaName : String → Option (Option String) := fun _ => none
  itempropName : Option String := none
  pageTitle : Option String := none
  containerText : Option String := none
  timeDatetime : Option String := none
  ariaLabels : List String := []
  itempropLocation : Option String := none
  testidLocation : Option String := none
  extructJsonLd : List JsonValue := []

/-- The `meta` helper of `extract_open_graph` (src/url_parser.py:187-189):
the property-attributed tag, else the name-attributed one; its `content`
when present and non-empty, else `None`. -/
def metaOf (soup : Soup) (prop : String) : Option String :=
  let tag :=
    match soup.metaProp prop with
    | some t => some t
    | none => soup.metaName prop
  match tag with
  | some (some c) => if c ≠ "" then some c else none
  | _ => none

/-- The dict built by `extract_open_graph` (src/url_parser.py:186-202). -/
structure OGFields where
  title : Option String
  description : Option String
  image : Option String
  locality : Option String
  region : Option String
  country : Option String
  place : Option String
  street_address : Option String

/-- Embeds `extract_open_graph` (src/url_parser.py:186-202). -/
def extract_open_graph (soup : Soup) : OGFields :=
  { title := pyOr (metaOf soup "og:title") (metaOf soup "twitter:title")
    description := pyOr (metaOf soup "og:description") (metaOf soup "twitter:description")
    image := pyOr (metaOf soup "og:image") (metaOf soup "twitter:image")
    locality := metaOf soup "og:locality"
    region := metaOf soup "og:region"
    country := metaOf soup "og:country-name"
    place := metaOf soup "og:place"
    street_address := pyOr (metaOf soup "og:street-address")
      (metaOf soup "place:location:street_address") }

/-- The overlay noise phrases of `extract_main_text`
(src/url_parser.py:217-221). -/
def noisePhrases : List String :=
  ["Press Option+1 for screen-reader mode",
   "Accessibility Screen-Reader Guide",
   "Feedback, and Issue Reporting"]

/-- Embeds `extract_main_text` (src/url_parser.py:204-227) from the
container text: remove the noise phrases, collapse whitespace, return the
first `limit` characters (`None` when empty or no container). -/
def extract_main_text (soup : Soup) (limit : Nat) : Option String :=
  match soup.containerText with
  | none => none
  | some text =>
    let t1 := noisePhrases.foldl (fun acc p => pyReplace acc p "") text
    let t2 := collapseWS t1
    if t2 = "" then none else some (t2.take limit)

/-! ## Text date search (src/url_parser.py:266-296) -/

/-- An oracle for `dateparser.search.search_dates` with the settings used
by `extract_start_date_from_text`: for a given query string, `none` models
a `None` return and `some hits` the list of (matched-span, datetime)
pairs. -/
def SearchDates : Type := String → Option (List (String × IsoDT))

/-- The rejected-span words of `extract_start_date_from_text`
(src/url_parser.py:287). -/
def dateBadWords : List String := ["updated", "posted", "copyright", "©"]

/-- The month abbreviations of the guard regex (src/url_parser.py:291),
also the list used by the aria-label scan (src/url_parser.py:593-595). -/
def monthTokens : List String :=
  ["jan", "feb", "mar", "apr", "may", "jun",
   "jul", "aug", "sep", "oct", "nov", "dec"]

/-- A digit immediately followed by a slash and a digit occurs somewhere. -/
def hasDigitSlashDigit : List Char → Bool
  | a :: b :: c :: rest =>
    ((readDigit a).isSome && b = '/' && (readDigit c).isSome) ||
      hasDigitSlashDigit (b :: c :: rest)
  | _ => false

/-- The guard `re.search(r"(jan|...|dec|\d{1,2}/\d{1,2})", ml)`
(src/url_parser.py:291) succeeds exactly when a month token occurs as a
substring or some digit-slash-digit triple occurs (any match of
`\d{1,2}/\d{1,2}` contains such a triple, and conversely). -/
def hasMonthOrSlash (ml : String) : Bool :=
  monthTokens.any (fun m => pyIn m ml) || hasDigitSlashDigit ml.data

/-- The candidate loop of `extract_start_date_from_text`
(src/url_parser.py:283-296): reject a span containing a bad word or
lacking the month/numeric guard; accept the first remainder. -/
def dateScanLoop : List (String × IsoDT) → Option String
  | [] => none
  | (matched, dt) :: rest =>
    let ml := pyLower matched
    if dateBadWords.any (fun b => pyIn b ml) then dateScanLoop rest
    else if !hasMonthOrSlash ml then dateScanLoop rest
    else some (to_naive_iso dt)

/-- Embeds `extract_start_date_from_text` (src/url_parser.py:266-296):
falsy text gives `None`; the whitespace-collapsed text is searched; a
`None` or empty hit list gives `None`; at most the first ten candidates
are scanned. -/
def extract_start_date_from_text (sd : SearchDates) (text : String) : Option String :=
  if text = "" then none
  else
    let cleaned := collapseWS text
    match sd cleaned with
    | none => none
    | some hits =>
      if hits.isEmpty then none
      else dateScanLoop (hits.take 10)

/-! ## Structured-location fallback (src/url_parser.py:298-306, 445-470) -/

mutual

/-- Embeds `_iter_dicts` (src/url_parser.py:298-305): the dicts of a JSON
tree in depth-first preorder (a dict before its values). -/
def iterDicts : JsonValue → List JsonValue
  | .obj kvs => .obj kvs :: iterDictsEntries kvs
  | .arr xs => iterDictsList xs
  | _ => []

/-- Dicts under a dict's values. -/
def iterDictsEntries : List (String × JsonValue) → List JsonValue
  | [] => []
  | (_, v) :: rest => iterDicts v ++ iterDictsEntries rest

/-- Dicts under a list's elements. -/
def iterDictsList : List JsonValue → List JsonValue
  | [] => []
  | v :: rest => iterDicts v ++ iterDictsList rest

end

/-- The Event-type test of `extract_structured_location`
(src/url_parser.py:451-453): some truthy member of the (listified)
`@type` whose `str` rendering lower-cases to `"event"`. -/
def extructEventTyped (o : JsonValue) : Bool :=
  let t := jGet o "@type"
  let types := match t with | .arr xs => xs | _ => [t]
  types.any (fun x => jTruthy x && pyLower (pyStr x) = "event")

/-- The per-dict body of `extract_structured_location`
(src/url_parser.py:455-468): `some r` when the loop would return `r` at
this dict, `none` when it would continue scanning. -/
def structuredLocOfObj (o : JsonValue) : Option String :=
  if !extructEventTyped o then none
  else
    match jGet o "location" with
    | .obj lkvs =>
      let nameV := (jLookup lkvs "name").getD .null
      let addrV := (jLookup lkvs "address").getD .null
      if jTruthy nameV && pyStrip (pyStr nameV) ≠ "" then
        some ((pyStrip (pyStr nameV)).take 80)
      else
        match addrV with
        | .obj akvs =>
          let parts := (["streetAddress", "addressLocality", "addressRegion"].map
            (fun k => (jLookup akvs k).getD .null)).filter jTruthy
            |>.map (fun p => pyStrip (pyStr p))
          if parts.isEmpty then none
          else some ((String.intercalate ", " parts).take 80)
        | _ => none
    | _ => none

/-- First returned value over a dict list. -/
def structLocScan : List JsonValue → Option String
  | [] => none
  | o :: rest =>
    match structuredLocOfObj o with
    | some r => some r
    | none => structLocScan rest

/-- Embeds `extract_structured_location` (src/url_parser.py:445-470) over
the oracle `"json-ld"` list of `extruct.extract`. -/
def extract_structured_location (items : List JsonValue) : Option String :=
  structLocScan (items.map iterDicts).flatten

/-! ## URL joining -/

/-- Split a character list at the first occurrence of a pattern: the part
before and the part from the match on, `none` when the pattern is absent. -/
def breakOnSub (pat : List Char) : List Char → Option (List Char × List Char)
  | [] => if pat.isEmpty then some ([], []) else none
  | c :: cs =>
    if prefixB pat (c :: cs) then some ([], c :: cs)
    else
      match breakOnSub pat cs with
      | some (pre, suf) => some (c :: pre, suf)
      | none => none

/-- Models `urllib.parse.urljoin(base, rel)` for the only shape
`parse_event` passes it: a reference starting with `/` against an absolute
`scheme://host/...` base. A protocol-relative `//host/path` keeps only the
base's scheme; a root-relative `/path` keeps scheme and authority. -/
def urljoin_abs (base rel : String) : String :=
  match breakOnSub "://".data base.data with
  | none => rel
  | some (scheme, rest) =>
    if pyStartsWith rel "//" then String.mk scheme ++ ":" ++ rel
    else
      let host := (rest.drop 3).takeWhile (fun c => c ≠ '/')
      String.mk scheme ++ "://" ++ String.mk host ++ rel

/-! ## The per-URL pipeline (src/url_parser.py:472-677)

`buildCard` below is the body of `parse_event` after the fetch-strategy
branch, decomposed into one function per precedence stage; `parse_event`
composes the fetch step with it. -/

/-- The fresh record (src/url_parser.py:488). -/
def initCard (url source : String) : EventCard :=
  { url := url, source := some source }

/-- Embeds the network-JSON stage (src/url_parser.py:494-500): each field
becomes the adapter's value when truthy, else keeps the current one. -/
def adapterFill (extracted : Option PartialFields) (c : EventCard) : EventCard :=
  match extracted with
  | none => c
  | some f =>
    { c with
      title := pyOr f.title c.title
      description := pyOr f.description c.description
      start_date := pyOr f.start_date c.start_date
      end_date := pyOr f.end_date c.end_date
      location := pyOr f.location c.location
      image := pyOr f.image c.image }

/-- The date-normalization pass applied after the adapter, JSON-LD and
framework-JSON stages (src/url_parser.py:502-503, 517-518, 546-547). -/
def normDates (c : EventCard) : EventCard :=
  { c with
    start_date := normalize_iso_no_tz c.start_date
    end_date := normalize_iso_no_tz c.end_date }

/-- State after the network-JSON stage and its normalization pass. -/
def stage1 (extracted : Option PartialFields) (url source : String) : EventCard :=
  normDates (adapterFill extracted (initCard url source))

/-- The JSON-LD location fill (src/url_parser.py:520-524). -/
def ldLocationFill (item : JsonValue) (c : EventCard) : EventCard :=
  match jGet item "location" with
  | .obj lkvs =>
    let v := pyOr (jStrField (.obj lkvs) "name") (format_address (jGet (.obj lkvs) "address"))
    { c with location := pyOr c.location v }
  | .arr (x :: _) =>
    match x with
    | .obj lkvs =>
      let v := pyOr (jStrField (.obj lkvs) "name") (format_address (jGet (.obj lkvs) "address"))
      { c with location := pyOr c.location v }
    | _ => c
  | _ => c

/-- The JSON-LD image fill (src/url_parser.py:526-530). -/
def ldImageFill (item : JsonValue) (c : EventCard) : EventCard :=
  match jGet item "image" with
  | .str s => { c with image := pyOr c.image (some s) }
  | .arr (x :: _) =>
    { c with image := pyOr c.image (match x with | .str s => some s | _ => none) }
  | _ => c

/-- Embeds the JSON-LD stage (src/url_parser.py:509-530): fill the four
text/date fields still empty, re-normalize the dates, then location and
image. -/
def ldStage (soup : Soup) (c : EventCard) : EventCard :=
  match extract_from_ld_json soup.ldJsonBlocks with
  | none => c
  | some item =>
    let c1 := { c with
      title := pyOr c.title (jStrField item "name")
      description := pyOr c.description (jStrField item "description")
      start_date := pyOr c.start_date (jStrField item "startDate")
      end_date := pyOr c.end_date (jStrField item "endDate") }
    ldImageFill item (ldLocationFill item (normDates c1))

/-- Embeds the framework-JSON stage (src/url_parser.py:536-547). -/
def nxStage (soup : Soup) (c : EventCard) : EventCard :=
  match extract_from_next_data_generic soup.nextData with
  | none => c
  | some nx =>
    normDates { c with
      title := pyOr c.title nx.title
      description := pyOr c.description nx.description
      start_date := pyOr c.start_date nx.start_date
      end_date := pyOr c.end_date nx.end_date
      location := pyOr c.location nx.location
      image := pyOr c.image nx.image }

/-- Embeds the OpenGraph stage (src/url_parser.py:553-563): when the title
is still falsy an `itemprop="name"` element is consulted first, then the
`og:`/`twitter:` title, then the page `<title>`; description and image
fill from the meta tags. -/
def ogStage (soup : Soup) (c : EventCard) : EventCard :=
  let og := extract_open_graph soup
  let c1 :=
    if truthyS c.title then c
    else
      match soup.itempropName with
      | some txt => { c with title := if txt ≠ "" then some txt else none }
      | none => c
  let c2 := { c1 with title := pyOr c1.title (pyOr og.title soup.pageTitle) }
  { c2 with
    description := pyOr c2.description og.description
    image := pyOr c2.image og.image }

/-- The aria-label month check (src/url_parser.py:592-595). -/
def ariaMonthCheck (aria : String) : Bool :=
  0 < aria.length && aria.length ≤ 80 &&
    monthTokens.any (fun m => pyIn m (pyLower aria))

/-- The aria-label loop (src/url_parser.py:589-599): the first stripped
label that passes the length/month check and yields a date wins. -/
def ariaScan (sd : SearchDates) : List String → Option String
  | [] => none
  | raw :: rest =>
    let aria := pyStrip raw
    if ariaMonthCheck aria then
      match extract_start_date_from_text sd aria with
      | some dt => some dt
      | none => ariaScan sd rest
    else ariaScan sd rest

/-- The description fallback from the main text (src/url_parser.py:571-572). -/
def descFillStep (main : Option String) (c : EventCard) : EventCard :=
  if !truthyS c.description then
    match main with
    | some m => { c with description := some (m.take 280) }
    | none => c
  else c

/-- The structural `time[datetime]` date fill (src/url_parser.py:580-583). -/
def timeTagStep (soup : Soup) (c : EventCard) : EventCard :=
  if !truthyS c.start_date then
    match soup.timeDatetime with
    | some v =>
      if v ≠ "" then { c with start_date := normalize_iso_no_tz (some (pyStrip v)) }
      else c
    | none => c
  else c

/-- The aria-label date fill (src/url_parser.py:589-599). -/
def ariaStep (sd : SearchDates) (soup : Soup) (c : EventCard) : EventCard :=
  if !truthyS c.start_date then
    match ariaScan sd soup.ariaLabels with
    | some dt => { c with start_date := some dt }
    | none => c
  else c

/-- The text date fallback (src/url_parser.py:605-606). -/
def textDateStep (sd : SearchDates) (fallbackText : String) (c : EventCard) : EventCard :=
  if !truthyS c.start_date then
    { c with start_date := extract_start_date_from_text sd fallbackText }
  else c

/-- The `itemprop` location fill (src/url_parser.py:612-616). -/
def itempropLocStep (soup : Soup) (c : EventCard) : EventCard :=
  if !truthyS c.location then
    match soup.itempropLocation with
    | some txt => { c with location := if txt ≠ "" then some txt else none }
    | none => c
  else c

/-- The `data-testid` location fill (src/url_parser.py:618-622). -/
def testidLocStep (soup : Soup) (c : EventCard) : EventCard :=
  if !truthyS c.location then
    match soup.testidLocation with
    | some txt => { c with location := if txt ≠ "" then some txt else none }
    | none => c
  else c

/-- The OpenGraph location-parts fill (src/url_parser.py:624-637); the
appended parts are the truthy OpenGraph values, and `metaOf` never yields
an empty string, so truthiness is presence. -/
def ogPartsLocStep (soup : Soup) (c : EventCard) : EventCard :=
  if !truthyS c.location then
    let og := extract_open_graph soup
    let parts := ([og.place, og.street_address, og.locality, og.region,
      og.country].filterMap id).filter (fun p => p ≠ "")
    if parts.isEmpty then c
    else { c with location := some (String.intercalate ", " parts) }
  else c

/-- The extruct location fallback (src/url_parser.py:643-644). -/
def extructLocStep (soup : Soup) (c : EventCard) : EventCard :=
  if !truthyS c.location then
    { c with location := extract_structured_location soup.extructJsonLd }
  else c

/-- Embeds the text-heuristic stages (src/url_parser.py:569-644):
main-text description fallback, structural `time[datetime]` tag,
aria-label dates, text date search, then the location fallbacks
(`itemprop`, `data-testid`, OpenGraph parts, extruct). `fallback_text` is
computed right after the description fill, as in the source; the
description does not change between that point and its use. -/
def textStages (sd : SearchDates) (soup : Soup) (c : EventCard) : EventCard :=
  let main := extract_main_text soup 600
  let c1 := descFillStep main c
  let fallbackText := (pyOr c1.description main).getD ""
  extructLocStep soup (ogPartsLocStep soup (testidLocStep soup (itempropLocStep soup
    (textDateStep sd fallbackText (ariaStep sd soup (timeTagStep soup c1))))))

/-- The per-field trim of the cleanup loop (src/url_parser.py:650-654). -/
def stripOptField (v : Option String) : Option String :=
  match v with
  | none => none
  | some s =>
    let t := pyStrip s
    if t = "" then none else some t

/-- Split a character list into the text segments between `<...>` tag
runs, with fuel; an unclosed `<` drops the remainder, as the html.parser
tree builder does with a truncated start tag. -/
def tagSegmentsFuel : Nat → List Char → List (List Char)
  | 0, s => [s]
  | _, [] => [[]]
  | fuel + 1, c :: cs =>
    if c = '<' then
      match cs.dropWhile (fun d => d ≠ '>') with
      | _ :: r => [] :: tagSegmentsFuel fuel r
      | [] => [[]]
    else
      match tagSegmentsFuel fuel cs with
      | seg :: more => (c :: seg) :: more
      | [] => [[c]]

/-- Models `BeautifulSoup(s, "html.parser").get_text(" ", strip=True)`:
the text segments between markup runs, each stripped, empties dropped,
joined by single spaces (entity re-decoding and the html.parser edge
cases for malformed markup are outside the modelled subset; no string a
theorem here evaluates contains them). -/
def bsGetTextSpace (s : String) : String :=
  String.intercalate " "
    (((tagSegmentsFuel s.data.length s.data).map (fun l => pyStrip (String.mk l))).filter
      (fun t => t ≠ ""))

/-- The final description munging (src/url_parser.py:659-662): unescape,
replace literal backslash-n pairs, strip embedded markup. -/
def finalizeDescVal (d : String) : String :=
  let d1 := html_unescape d
  let d2 := pyReplace d1 "\\n" " "
  bsGetTextSpace d2

/-- The per-field trim pass of the cleanup loop (src/url_parser.py:650-654). -/
def stripAllStep (c : EventCard) : EventCard :=
  { c with
    title := stripOptField c.title
    description := stripOptField c.description
    start_date := stripOptField c.start_date
    end_date := stripOptField c.end_date
    location := stripOptField c.location
    image := stripOptField c.image }

/-- Title entity unescaping (src/url_parser.py:656-657). -/
def unescapeTitleStep (c : EventCard) : EventCard :=
  match c.title with
  | some t => if t = "" then c else { c with title := some (html_unescape t) }
  | none => c

/-- Description unescaping and markup stripping (src/url_parser.py:659-662). -/
def descMungeStep (c : EventCard) : EventCard :=
  match c.description with
  | some d => if d = "" then c else { c with description := some (finalizeDescVal d) }
  | none => c

/-- Location entity unescaping (src/url_parser.py:664-665). -/
def unescapeLocStep (c : EventCard) : EventCard :=
  match c.location with
  | some l => if l = "" then c else { c with location := some (html_unescape l) }
  | none => c

/-- Root-relative image resolution (src/url_parser.py:667-668). -/
def imageResolveStep (c : EventCard) : EventCard :=
  match c.image with
  | some img =>
    if img ≠ "" && pyStartsWith img "/" then
      { c with image := some (urljoin_abs c.url img) }
    else c
  | none => c

/-- The whitespace-collapsing pass (src/url_parser.py:670-672). -/
def cwStep (c : EventCard) : EventCard :=
  let c6 := { c with description := clean_whitespace c.description }
  let c7 := { c6 with title := clean_whitespace c6.title }
  { c7 with location := clean_whitespace c7.location }

/-- Embeds the cleanup and normalization block (src/url_parser.py:650-672):
per-field trim, entity unescaping, description markup stripping, relative
image resolution, whitespace collapsing. -/
def finalizeClean (c : EventCard) : EventCard :=
  cwStep (imageResolveStep (unescapeLocStep (descMungeStep (unescapeTitleStep
    (stripAllStep c)))))

/-- The cleanup block followed by the blocked-keyword check
(src/url_parser.py:650-675). -/
def finalize (c : EventCard) : EventCard :=
  let c8 := finalizeClean c
  match c8.title with
  | some t =>
    if t ≠ "" && BLOCKED_KEYWORDS.any (fun k => pyIn k (pyLower t)) then
      { c8 with source := some "blocked" }
    else c8
  | none => c8

/-- The record built by `parse_event` from the chosen HTML: the five
precedence stages followed by the cleanup block. -/
def buildCard (sd : SearchDates) (url source : String)
    (extracted : Option PartialFields) (soup : Soup) : EventCard :=
  finalize (textStages sd soup (ogStage soup (nxStage soup
    (ldStage soup (stage1 extracted url source)))))

/-- Embeds `parse_event` (src/url_parser.py:472-677): the fetch-strategy
step (which propagates a network error from the HTTP GET) followed by the
extraction pipeline over the fetched HTML's parse (`soupOf`). -/
def parse_event (sd : SearchDates) (url : String) (httpRes : HttpResult)
    (browserFetch : String × Option PartialFields) (soupOf : String → Soup) :
    Except String EventCard :=
  match fetchStrategy url httpRes browserFetch with
  | .error e => .error e
  | .ok (html, extracted, source) => .ok (buildCard sd url source extracted (soupOf html))

/-! ## Definitions used by the claim statements -/

/-- Whether an `Except` result is a success (a Python call that did not
raise). -/
def isOkB {ε α : Type} : Except ε α → Bool
  | .ok _ => true
  | .error _ => false

/-- A JSON value that is a string. -/
def isStrB : JsonValue → Bool
  | .str _ => true
  | _ => false

/-- A JSON value that is a dict. -/
def isObjB : JsonValue → Bool
  | .obj _ => true
  | _ => false

/-- Falsy, or a string: the shapes `_clean_text` handles without raising. -/
def strOrFalsy (v : JsonValue) : Bool :=
  !jTruthy v || isStrB v

/-- Payload shapes on which the Timely `extract_event` cannot raise: the
payload is a dict when truthy, its `data` member is a dict when truthy,
and that dict's `title` and `description_short` are strings when truthy. -/
def wellShapedPayload (p : JsonValue) : Bool :=
  (!jTruthy p || isObjB p) &&
    (let base := jPyOr p (.obj [])
     let d := jGet base "data"
     (!jTruthy d || isObjB d) &&
       (let d2 := jPyOr d (.obj [])
        strOrFalsy (jGet d2 "title") && strOrFalsy (jGet d2 "description_short")))

/-- The candidate list `extract_start_date_from_text` iterates: the
search-oracle hits for the whitespace-collapsed text. -/
def hitsOf (sd : SearchDates) (text : String) : List (String × IsoDT) :=
  (sd (collapseWS text)).getD []

/-- A candidate span the loop rejects: its lower-casing contains a bad
word, or fails the month/numeric guard. -/
def rejectedSpan (m : String) : Bool :=
  dateBadWords.any (fun b => pyIn b (pyLower m)) || !hasMonthOrSlash (pyLower m)

/-- The title contributed by the `itemprop="name"` element at the
OpenGraph stage: its text when non-empty. -/
def itempropResolved (soup : Soup) : Option String :=
  match soup.itempropName with
  | some t => if t ≠ "" then some t else none
  | none => none

/-- The card entering the cleanup block: the five precedence stages
composed. -/
def preFinalCard (sd : SearchDates) (url source : String)
    (extracted : Option PartialFields) (soup : Soup) : EventCard :=
  textStages sd soup (ogStage soup (nxStage soup (ldStage soup (stage1 extracted url source))))

/-- The six optional text fields of the record. -/
inductive CardField where
  | title
  | description
  | start_date
  | end_date
  | location
  | image
deriving Repr, DecidableEq

/-- Field projection. -/
def getF : CardField → EventCard → Option String
  | .title, c => c.title
  | .description, c => c.description
  | .start_date, c => c.start_date
  | .end_date, c => c.end_date
  | .location, c => c.location
  | .image, c => c.image

/-- A field value that the pipeline keeps intact: non-empty after
trimming, and for the date fields a fixed point of the date normalizer
(which each of the first three stages re-applies). -/
def keepF : CardField → String → Prop
  | .start_date, v => v ≠ "" ∧ normalize_iso_no_tz (some v) = some v
  | .end_date, v => v ≠ "" ∧ normalize_iso_no_tz (some v) = some v
  | _, v => pyStrip v ≠ ""

/-- What the cleanup block makes of a kept field value. -/
def finalNormF (f : CardField) (url v : String) : Option String :=
  match f with
  | .title => clean_whitespace (some (html_unescape (pyStrip v)))
  | .description => clean_whitespace (some (finalizeDescVal (pyStrip v)))
  | .location => clean_whitespace (some (html_unescape (pyStrip v)))
  | .image =>
    some (if pyStartsWith (pyStrip v) "/" then urljoin_abs url (pyStrip v) else pyStrip v)
  | .start_date => some v
  | .end_date => some v

/-- The record after each precedence stage: 0 network JSON (normalized),
1 JSON-LD, 2 framework JSON, 3 OpenGraph, 4 and beyond text heuristics. -/
def stageCard (sd : SearchDates) (url source : String)
    (extracted : Option PartialFields) (soup : Soup) : Nat → EventCard
  | 0 => stage1 extracted url source
  | 1 => ldStage soup (stage1 extracted url source)
  | 2 => nxStage soup (ldStage soup (stage1 extracted url source))
  | 3 => ogStage soup (nxStage soup (ldStage soup (stage1 extracted url source)))
  | _ + 4 => preFinalCard sd url source extracted soup

/-- Wall-clock components bounded as `datetime` guarantees. -/
def ValidDT (dt : IsoDT) : Prop :=
  dt.year < 10000 ∧ 1 ≤ dt.month ∧ dt.month ≤ 12 ∧ 1 ≤ dt.day ∧ dt.day ≤ 31 ∧
    dt.hour ≤ 23 ∧ dt.minute ≤ 59 ∧ dt.second ≤ 59

/-! ## Concrete fixtures for witnesses and counterexamples -/

/-- A search oracle that finds nothing. -/
def sdNone : SearchDates := fun _ => none

/-- A JSON-LD block holding a schema.org Event named `Y`. -/
def ldBlockY : Option JsonValue :=
  some (.obj [("@type", .str "Event"), ("name", .str "Y"),
    ("startDate", .str "2025-01-01")])

/-- A page whose only structured data is the Event block `ldBlockY`. -/
def soupLdY : Soup := { ldJsonBlocks := [ldBlockY] }

/-- A page with an `itemprop="name"` element reading `A` and an
`og:title` meta tag reading `B`. -/
def soupItempropOg : Soup :=
  { itempropName := some "A"
    metaProp := fun p => if p = "og:title" then some (some "B") else none }

/-- A page whose `og:image` is the relative reference `img/pic.jpg`. -/
def soupRelImage : Soup :=
  { metaProp := fun p => if p = "og:image" then some (some "img/pic.jpg") else none }

/-- A page whose `<title>` contains a blocked-content keyword. -/
def soupBlockedTitle : Soup :=
  { pageTitle := some "please wait - just a moment - checking" }

/-- A rejected date candidate: its span carries a bad word. -/
def badHit : String × IsoDT := ("updated jan 1", ⟨2025, 1, 1, 0, 0, 0, 0, none⟩)

/-- An accepted date candidate. -/
def goodHit : String × IsoDT := ("jan 5", ⟨2026, 1, 5, 0, 0, 0, 0, none⟩)

/-- A search oracle returning ten rejected candidates before an accepted
one, for the query `crowded`. -/
def sdTenBad : SearchDates :=
  fun s => if s = "crowded" then some (List.replicate 10 badHit ++ [goodHit]) else none

/-- A search oracle returning one accepted candidate for the query
`party jan 5`. -/
def sdGood : SearchDates :=
  fun s => if s = "party jan 5" then some [goodHit] else none

/-- A well-shaped Timely payload. -/
def payloadW : JsonValue :=
  .obj [("data", .obj [("title", .str "A &amp; B"), ("description_short", .null)])]

/-! ## Helper lemmas -/

/-- Truthiness of a present string value. -/
theorem truthyS_some_iff (v : String) : truthyS (some v) = true ↔ v ≠ "" := by
  simp [truthyS]

/-- The candidate loop rejects every span that carries a bad word or fails
the month/numeric guard. -/
theorem dateScanLoop_none_of_rejected (l : List (String × IsoDT))
    (h : ∀ p ∈ l, rejectedSpan p.1 = true) : dateScanLoop l = none := by
  induction l with
  | nil => rfl
  | cons p rest ih =>
    obtain ⟨m, dt⟩ := p
    have hm := h (m, dt) (List.mem_cons_self _ _)
    have hrest : ∀ q ∈ rest, rejectedSpan q.1 = true :=
      fun q hq => h q (List.mem_cons_of_mem _ hq)
    unfold rejectedSpan at hm
    simp only [dateScanLoop]
    rw [Bool.or_eq_true] at hm
    rcases hm with hb | hmn
    · rw [if_pos hb]
      exact ih hrest
    · by_cases hb : (dateBadWords.any fun b => pyIn b (pyLower m)) = true
      · rw [if_pos hb]
        exact ih hrest
      · rw [if_neg hb, if_pos hmn]
        exact ih hrest

/-- A value returned by the candidate loop comes from a candidate in the
list that passed both span filters. -/
theorem dateScanLoop_some_spec (l : List (String × IsoDT)) (r : String)
    (h : dateScanLoop l = some r) :
    ∃ p ∈ l, rejectedSpan p.1 = false ∧ r = to_naive_iso p.2 := by
  induction l with
  | nil => simp [dateScanLoop] at h
  | cons p rest ih =>
    obtain ⟨m, dt⟩ := p
    simp only [dateScanLoop] at h
    by_cases hb : (dateBadWords.any fun b => pyIn b (pyLower m)) = true
    · rw [if_pos hb] at h
      obtain ⟨q, hq, hprop⟩ := ih h
      exact ⟨q, List.mem_cons_of_mem _ hq, hprop⟩
    · rw [if_neg hb] at h
      by_cases hmn : (!hasMonthOrSlash (pyLower m)) = true
      · rw [if_pos hmn] at h
        obtain ⟨q, hq, hprop⟩ := ih h
        exact ⟨q, List.mem_cons_of_mem _ hq, hprop⟩
      · rw [if_neg hmn] at h
        refine ⟨(m, dt), List.mem_cons_self _ _, ?_, ?_⟩
        · unfold rejectedSpan
          simp only [Bool.or_eq_false_iff]
          exact ⟨Bool.not_eq_true _ ▸ (by simpa using hb), by simpa using hmn⟩
        · exact (Option.some_inj.1 h).symm

/-- A dict accepts `.get` and yields the looked-up member. -/
theorem pyDictGet_obj (v : JsonValue) (k : String) (h : isObjB v = true) :
    pyDictGet v k = .ok (jGet v k) := by
  cases v <;> first | rfl | (simp [isObjB] at h)

/-- A successful `Except` carries a value. -/
theorem isOkB_exists (e : Except String (Option String)) (h : isOkB e = true) :
    ∃ a, e = .ok a := by
  cases e with
  | ok a => exact ⟨a, rfl⟩
  | error _ => simp [isOkB] at h

/-- Defaulting a dict-when-truthy value with `or \x7b\x7d` always produces a
dict. -/
theorem jPyOr_objB (v : JsonValue) (h : (!jTruthy v || isObjB v) = true) :
    isObjB (jPyOr v (.obj [])) = true := by
  unfold jPyOr
  split
  · rename_i htr
    rw [Bool.or_eq_true] at h
    rcases h with hf | ho
    · rw [htr] at hf
      simp at hf
    · exact ho
  · rfl

/-- A falsy argument makes `_clean_text` return `None` without raising. -/
theorem cleanTextJ_falsy (v : JsonValue) (h : jTruthy v = false) :
    cleanTextJ v = .ok none := by
  unfold cleanTextJ
  simp [h]

/-- On a falsy-or-string argument `_clean_text` does not raise. -/
theorem cleanTextJ_ok (v : JsonValue) (h : strOrFalsy v = true) :
    isOkB (cleanTextJ v) = true := by
  unfold strOrFalsy at h
  rw [Bool.or_eq_true] at h
  rcases h with hf | hs
  · rw [cleanTextJ_falsy v (by simpa using hf)]
    rfl
  · cases v <;> simp [isStrB] at hs
    unfold cleanTextJ
    split
    · rfl
    · split <;> rfl

/-! ## Claim theorems -/

/-- C9: for every HTML string whose stripped length is less than 1200
characters, `looks_blocked` returns true, regardless of whether any
anti-bot signal phrase occurs in the HTML. -/
theorem C9_short_html_is_blocked (html : String)
    (h : (pyStrip html).length < 1200) : looks_blocked html = true := by
  unfold looks_blocked
  simp only [Bool.or_eq_true, decide_eq_true_eq]
  exact Or.inr h

/-- Witness for C9 at a short HTML string containing no signal phrase. -/
theorem C9_short_html_is_blocked_witness :
    (pyStrip "<html></html>").length < 1200 ∧ looks_blocked "<html></html>" = true :=
  ⟨by decide, C9_short_html_is_blocked "<html></html>" (by decide)⟩

/-- C10: `extract_start_date_from_text` inspects at most the first 10
candidates of the date search: whenever each of the first 10 candidates is
rejected by the span filters it returns `None`, even if an acceptable
candidate occurs later in the candidate list. -/
theorem C10_first_ten_candidates_only (sd : SearchDates) (text : String)
    (h : ∀ p ∈ (hitsOf sd text).take 10, rejectedSpan p.1 = true) :
    extract_start_date_from_text sd text = none := by
  unfold extract_start_date_from_text
  by_cases ht : text = ""
  · simp [ht]
  · rw [if_neg ht]
    unfold hitsOf at h
    cases hsd : sd (collapseWS text) with
    | none => simp only [hsd]
    | some hits =>
      rw [hsd] at h
      simp only [hsd]
      by_cases he : hits.isEmpty
      · simp [he]
      · simp only [he, Bool.false_eq_true, if_false]
        exact dateScanLoop_none_of_rejected _ (by simpa using h)

/-- Witness for C10: ten rejected candidates followed by an acceptable
eleventh still give `None`. -/
theorem C10_first_ten_candidates_only_witness :
    (∀ p ∈ (hitsOf sdTenBad "crowded").take 10, rejectedSpan p.1 = true) ∧
      extract_start_date_from_text sdTenBad "crowded" = none ∧
      rejectedSpan goodHit.1 = false ∧ goodHit ∈ hitsOf sdTenBad "crowded" :=
  ⟨by decide, C10_first_ten_candidates_only sdTenBad "crowded" (by decide),
    by decide, by decide⟩

/-- C7: a date returned by `extract_start_date_from_text` always comes
from one of the first ten candidates whose span contains none of
"updated", "posted", "copyright", "©" (lower-cased) and passes the
month-token / digit-slash-digit guard; hence the function never returns a
date whose matched span contains a bad word or lacks both a month name and
a numeric d/d pattern. -/
theorem C7_span_filters (sd : SearchDates) (text r : String)
    (h : extract_start_date_from_text sd text = some r) :
    ∃ p ∈ (hitsOf sd text).take 10,
      (∀ b ∈ dateBadWords, pyIn b (pyLower p.1) = false) ∧
        hasMonthOrSlash (pyLower p.1) = true ∧ r = to_naive_iso p.2 := by
  unfold extract_start_date_from_text at h
  by_cases ht : text = ""
  · simp [ht] at h
  · rw [if_neg ht] at h
    unfold hitsOf
    cases hsd : sd (collapseWS text) with
    | none => simp only [hsd] at h; exact absurd h (by simp)
    | some hits =>
      simp only [hsd] at h
      by_cases he : hits.isEmpty
      · simp [he] at h
      · simp only [he, Bool.false_eq_true, if_false] at h
        obtain ⟨q, hq, hrej, hr⟩ := dateScanLoop_some_spec _ _ h
        refine ⟨q, by simpa using hq, ?_, ?_, hr⟩
        · intro b hb
          have := (Bool.or_eq_false_iff.1 hrej).1
          rw [List.any_eq_false] at this
          simpa using this b hb
        · have := (Bool.or_eq_false_iff.1 hrej).2
          simpa using this

/-- Witness for C7 at a single accepted candidate. -/
theorem C7_span_filters_witness :
    extract_start_date_from_text sdGood "party jan 5" = some "2026-01-05T00:00:00" ∧
      (∃ p ∈ (hitsOf sdGood "party jan 5").take 10,
        (∀ b ∈ dateBadWords, pyIn b (pyLower p.1) = false) ∧
          hasMonthOrSlash (pyLower p.1) = true ∧
          "2026-01-05T00:00:00" = to_naive_iso p.2) :=
  ⟨by decide, C7_span_filters sdGood "party jan 5" "2026-01-05T00:00:00" (by decide)⟩

/-- C3 counterexample: a network error from the lightweight HTTP fetch
makes `parse_event` raise (the fetch-strategy step has no handler), rather
than treating the error as blocked content and escalating to the browser
path. -/
theorem C3_counterexample :
    parse_event sdNone "https://example.com/events" .netError ("", none)
      (fun _ => ({} : Soup)) = .error "requests.RequestException" := rfl

/-- C3 amended: the fetch-strategy step of `parse_event` raises exactly on
a network error of the lightweight HTTP fetch; every other outcome
proceeds without an exception (escalating to the browser only on a
fragment URL, a 403/429 status, or blocked-looking HTML). -/
theorem C3_amended (sd : SearchDates) (url : String) (httpRes : HttpResult)
    (bf : String × Option PartialFields) (soupOf : String → Soup) :
    isOkB (parse_event sd url httpRes bf soupOf) = false ↔ httpRes = .netError := by
  cases httpRes with
  | netError => simp [parse_event, fetchStrategy, isOkB]
  | ok st html =>
    simp only [parse_event, fetchStrategy]
    split
    · rename_i heq
      split at heq <;> simp_all [isOkB]
    · simp [isOkB]

/-- C2 counterexample: the Timely `extract_event` raises `AttributeError`
on the parsed-JSON payload `[1]` (a truthy non-dict), so adapters can
raise on malformed payloads. -/
theorem C2_counterexample :
    extract_event (.arr [.num 1]) = .error "AttributeError" := rfl

/-- C2 amended: the Timely `extract_event` returns a field mapping without
raising for every payload that is a dict when truthy, whose `data` member
is a dict when truthy and whose `title` and `description_short` members of
that dict are strings when truthy; outside these shapes it can raise (the
browser response listener catches the exception). -/
theorem C2_amended (p : JsonValue) (h : wellShapedPayload p = true) :
    isOkB (extract_event p) = true := by
  simp only [wellShapedPayload, Bool.and_eq_true] at h
  obtain ⟨h1, h3, h5, h6⟩ := h
  have hd1 := pyDictGet_obj (jPyOr p (.obj [])) "data" (jPyOr_objB p h1)
  have hd2 := pyDictGet_obj
    (jPyOr (jGet (jPyOr p (.obj [])) "data") (.obj [])) "title" (jPyOr_objB _ h3)
  have hd3 := pyDictGet_obj
    (jPyOr (jGet (jPyOr p (.obj [])) "data") (.obj [])) "description_short"
    (jPyOr_objB _ h3)
  obtain ⟨t, ht⟩ := isOkB_exists _ (cleanTextJ_ok _ h5)
  obtain ⟨dsc, hdsc⟩ := isOkB_exists _ (cleanTextJ_ok _ h6)
  simp only [extract_event, hd1, hd2, hd3, ht, hdsc, Bind.bind, Except.bind]
  rfl

/-- Witness for the amended C2 at a concrete well-shaped payload. -/
theorem C2_amended_witness :
    wellShapedPayload payloadW = true ∧ isOkB (extract_event payloadW) = true :=
  ⟨by decide, C2_amended payloadW (by decide)⟩

/-- A prefix stays a prefix under a character map. -/
theorem prefixB_map (f : Char → Char) (a b : List Char) (h : prefixB a b = true) :
    prefixB (a.map f) (b.map f) = true := by
  induction a generalizing b with
  | nil => rfl
  | cons x xs ih =>
    cases b with
    | nil => simp [prefixB] at h
    | cons y ys =>
      simp only [prefixB, Bool.and_eq_true, decide_eq_true_eq] at h
      simp only [List.map_cons, prefixB, Bool.and_eq_true, decide_eq_true_eq]
      exact ⟨congrArg f h.1, ih ys h.2⟩

/-- A substring stays a substring under a character map. -/
theorem infixB_map (f : Char → Char) (a b : List Char) (h : infixB a b = true) :
    infixB (a.map f) (b.map f) = true := by
  induction b with
  | nil =>
    simp only [infixB] at h
    simp [infixB, List.isEmpty_iff.1 h]
  | cons y ys ih =>
    simp only [infixB, Bool.or_eq_true] at h
    rcases h with h | h
    · simp only [List.map_cons, infixB, Bool.or_eq_true]
      exact Or.inl (by simpa using prefixB_map f _ _ h)
    · simp only [List.map_cons, infixB, Bool.or_eq_true]
      exact Or.inr (ih h)

/-- An already-lower-case needle found in a haystack is found in the
lower-cased haystack. -/
theorem pyIn_pyLower (k t : String) (hk : pyLower k = k) (h : pyIn k t = true) :
    pyIn k (pyLower t) = true := by
  unfold pyIn pyLower
  have hkd : k.data.map Char.toLower = k.data := by
    have := congrArg String.data hk
    simpa [pyLower] using this
  simpa [hkd] using infixB_map Char.toLower k.data t.data h

/-- A haystack containing a non-empty needle is non-empty. -/
theorem pyIn_ne_empty (k t : String) (hk : k ≠ "") (h : pyIn k t = true) : t ≠ "" := by
  intro ht
  subst ht
  unfold pyIn infixB at h
  have : k.data = [] := by simpa [List.isEmpty_iff] using h
  exact hk (by cases k with | mk d => simpa using congrArg String.mk this)

/-- The blocked-keyword check of `finalize` fires whenever the final title
contains a keyword. -/
theorem finalize_blocked (c : EventCard) (t : String)
    (ht : (finalize c).title = some t)
    (hk : (BLOCKED_KEYWORDS.any fun k => pyIn k t) = true) :
    (finalize c).source = some "blocked" := by
  have hkl : ∀ k ∈ BLOCKED_KEYWORDS, pyLower k = k ∧ k ≠ "" := by decide
  rw [List.any_eq_true] at hk
  obtain ⟨k, hmem, hkin⟩ := hk
  have hlow : pyIn k (pyLower t) = true :=
    pyIn_pyLower k t (hkl k hmem).1 (by simpa using hkin)
  have hne : t ≠ "" := pyIn_ne_empty k t (hkl k hmem).2 (by simpa using hkin)
  unfold finalize at ht ⊢
  cases h8 : (finalizeClean c).title with
  | none =>
    simp only [h8] at ht
    exact absurd ht (by simp)
  | some t' =>
    simp only [h8] at ht ⊢
    by_cases hcond :
        (t' ≠ "" && BLOCKED_KEYWORDS.any fun kk => pyIn kk (pyLower t')) = true
    · rw [if_pos hcond] at ht ⊢
    · rw [if_neg hcond] at ht ⊢
      rw [h8] at ht
      have htt : t' = t := Option.some_inj.1 ht
      subst htt
      refine absurd ?_ hcond
      simp only [Bool.and_eq_true, decide_eq_true_eq]
      exact ⟨hne, List.any_eq_true.2 ⟨k, hmem, by simpa using hlow⟩⟩

/-- C4: for every EventCard returned by `parse_event` whose final resolved
title contains any keyword of the fixed blocked-content set, the record's
`source` field equals "blocked", regardless of whether the page was
fetched over HTTP or via the browser session. -/
theorem C4_blocked_keywords_force_source (sd : SearchDates) (url : String)
    (httpRes : HttpResult) (bf : String × Option PartialFields)
    (soupOf : String → Soup) (card : EventCard) (t : String)
    (hok : parse_event sd url httpRes bf soupOf = .ok card)
    (ht : card.title = some t)
    (hk : (BLOCKED_KEYWORDS.any fun k => pyIn k t) = true) :
    card.source = some "blocked" := by
  unfold parse_event at hok
  cases hfs : fetchStrategy url httpRes bf with
  | error e => rw [hfs] at hok; simp at hok
  | ok triple =>
    rw [hfs] at hok
    obtain ⟨html, extracted, source⟩ := triple
    have hcard : buildCard sd url source extracted (soupOf html) = card := by
      simpa using hok
    rw [← hcard] at ht ⊢
    unfold buildCard at ht ⊢
    exact finalize_blocked _ t ht hk

/-- Witness for C4 at a page whose title carries "just a moment". -/
theorem C4_blocked_keywords_force_source_witness :
    parse_event sdNone "https://e.com" (.ok 403 "") ("", none)
        (fun _ => soupBlockedTitle) =
      .ok (buildCard sdNone "https://e.com" "playwright" none soupBlockedTitle) ∧
    (buildCard sdNone "https://e.com" "playwright" none soupBlockedTitle).title =
      some "please wait - just a moment - checking" ∧
    (BLOCKED_KEYWORDS.any fun k =>
      pyIn k "please wait - just a moment - checking") = true ∧
    (buildCard sdNone "https://e.com" "playwright" none soupBlockedTitle).source =
      some "blocked" :=
  ⟨rfl, by decide, by decide,
    C4_blocked_keywords_force_source sdNone "https://e.com" (.ok 403 "") ("", none)
      (fun _ => soupBlockedTitle) _ "please wait - just a moment - checking"
      rfl (by decide) (by decide)⟩

/-- Falsy left operand of a Python `or`. -/
theorem pyOr_falsy (a b : Option String) (h : truthyS a = false) : pyOr a b = b := by
  simp [pyOr, h]

/-- Truthy left operand of a Python `or`. -/
theorem pyOr_truthy (a b : Option String) (h : truthyS a = true) : pyOr a b = a := by
  simp [pyOr, h]

/-- A trimmed field value surviving the cleanup loop is non-empty. -/
theorem stripOptField_some_ne (v : Option String) (s : String)
    (h : stripOptField v = some s) : s ≠ "" := by
  unfold stripOptField at h
  cases v with
  | none => simp at h
  | some w =>
    by_cases hw : pyStrip w = ""
    · simp [hw] at h
    · simp only [hw, if_neg, Bool.false_eq_true] at h
      exact (Option.some_inj.1 (by simpa using h)) ▸ hw

/-- The description fallback leaves the image unchanged. -/
theorem descFillStep_image (m : Option String) (c : EventCard) :
    (descFillStep m c).image = c.image := by
  unfold descFillStep; repeat' (first | rfl | split)

/-- The `time[datetime]` fill leaves the image unchanged. -/
theorem timeTagStep_image (soup : Soup) (c : EventCard) :
    (timeTagStep soup c).image = c.image := by
  unfold timeTagStep; repeat' (first | rfl | split)

/-- The aria-label fill leaves the image unchanged. -/
theorem ariaStep_image (sd : SearchDates) (soup : Soup) (c : EventCard) :
    (ariaStep sd soup c).image = c.image := by
  unfold ariaStep; repeat' (first | rfl | split)

/-- The text date fallback leaves the image unchanged. -/
theorem textDateStep_image (sd : SearchDates) (fb : String) (c : EventCard) :
    (textDateStep sd fb c).image = c.image := by
  unfold textDateStep; repeat' (first | rfl | split)

/-- The `itemprop` location fill leaves the image unchanged. -/
theorem itempropLocStep_image (soup : Soup) (c : EventCard) :
    (itempropLocStep soup c).image = c.image := by
  unfold itempropLocStep; repeat' (first | rfl | split)

/-- The `data-testid` location fill leaves the image unchanged. -/
theorem testidLocStep_image (soup : Soup) (c : EventCard) :
    (testidLocStep soup c).image = c.image := by
  unfold testidLocStep; repeat' (first | rfl | split)

/-- The OpenGraph location fill leaves the image unchanged. -/
theorem ogPartsLocStep_image (soup : Soup) (c : EventCard) :
    (ogPartsLocStep soup c).image = c.image := by
  unfold ogPartsLocStep; repeat' (first | rfl | split | dsimp only)

/-- The extruct location fallback leaves the image unchanged. -/
theorem extructLocStep_image (soup : Soup) (c : EventCard) :
    (extructLocStep soup c).image = c.image := by
  unfold extructLocStep; repeat' (first | rfl | split)

/-- The text-heuristic stages never touch the image. -/
theorem textStages_image (sd : SearchDates) (soup : Soup) (c : EventCard) :
    (textStages sd soup c).image = c.image := by
  simp only [textStages, extructLocStep_image, ogPartsLocStep_image,
    testidLocStep_image, itempropLocStep_image, textDateStep_image,
    ariaStep_image, timeTagStep_image, descFillStep_image]

/-- The description fallback leaves the url unchanged. -/
theorem descFillStep_url (m : Option String) (c : EventCard) :
    (descFillStep m c).url = c.url := by
  unfold descFillStep; repeat' (first | rfl | split)

/-- The `time[datetime]` fill leaves the url unchanged. -/
theorem timeTagStep_url (soup : Soup) (c : EventCard) :
    (timeTagStep soup c).url = c.url := by
  unfold timeTagStep; repeat' (first | rfl | split)

/-- The aria-label fill leaves the url unchanged. -/
theorem ariaStep_url (sd : SearchDates) (soup : Soup) (c : EventCard) :
    (ariaStep sd soup c).url = c.url := by
  unfold ariaStep; repeat' (first | rfl | split)

/-- The text date fallback leaves the url unchanged. -/
theorem textDateStep_url (sd : SearchDates) (fb : String) (c : EventCard) :
    (textDateStep sd fb c).url = c.url := by
  unfold textDateStep; repeat' (first | rfl | split)

/-- The `itemprop` location fill leaves the url unchanged. -/
theorem itempropLocStep_url (soup : Soup) (c : EventCard) :
    (itempropLocStep soup c).url = c.url := by
  unfold itempropLocStep; repeat' (first | rfl | split)

/-- The `data-testid` location fill leaves the url unchanged. -/
theorem testidLocStep_url (soup : Soup) (c : EventCard) :
    (testidLocStep soup c).url = c.url := by
  unfold testidLocStep; repeat' (first | rfl | split)

/-- The OpenGraph location fill leaves the url unchanged. -/
theorem ogPartsLocStep_url (soup : Soup) (c : EventCard) :
    (ogPartsLocStep soup c).url = c.url := by
  unfold ogPartsLocStep; repeat' (first | rfl | split | dsimp only)

/-- The extruct location fallback leaves the url unchanged. -/
theorem extructLocStep_url (soup : Soup) (c : EventCard) :
    (extructLocStep soup c).url = c.url := by
  unfold extructLocStep; repeat' (first | rfl | split)

/-- The text-heuristic stages never touch the url. -/
theorem textStages_url (sd : SearchDates) (soup : Soup) (c : EventCard) :
    (textStages sd soup c).url = c.url := by
  simp only [textStages, extructLocStep_url, ogPartsLocStep_url,
    testidLocStep_url, itempropLocStep_url, textDateStep_url,
    ariaStep_url, timeTagStep_url, descFillStep_url]

/-- The adapter stage keeps the input url. -/
theorem stage1_url (e : Option PartialFields) (url source : String) :
    (stage1 e url source).url = url := by
  unfold stage1 normDates adapterFill initCard
  cases e <;> rfl

/-- The JSON-LD stage never touches the url. -/
theorem ldStage_url (soup : Soup) (c : EventCard) : (ldStage soup c).url = c.url := by
  unfold ldStage ldImageFill ldLocationFill normDates
  repeat' (first | rfl | split)

/-- The framework-JSON stage never touches the url. -/
theorem nxStage_url (soup : Soup) (c : EventCard) : (nxStage soup c).url = c.url := by
  unfold nxStage normDates
  repeat' (first | rfl | split)

/-- The OpenGraph stage never touches the url. -/
theorem ogStage_url (soup : Soup) (c : EventCard) : (ogStage soup c).url = c.url := by
  unfold ogStage
  repeat' (first | rfl | split)

/-- Title unescaping leaves the image unchanged. -/
theorem unescapeTitleStep_image (c : EventCard) :
    (unescapeTitleStep c).image = c.image := by
  unfold unescapeTitleStep; repeat' (first | rfl | split)

/-- Description munging leaves the image unchanged. -/
theorem descMungeStep_image (c : EventCard) :
    (descMungeStep c).image = c.image := by
  unfold descMungeStep; repeat' (first | rfl | split)

/-- Location unescaping leaves the image unchanged. -/
theorem unescapeLocStep_image (c : EventCard) :
    (unescapeLocStep c).image = c.image := by
  unfold unescapeLocStep; repeat' (first | rfl | split)

/-- Whitespace collapsing leaves the image unchanged. -/
theorem cwStep_image (c : EventCard) : (cwStep c).image = c.image := rfl

/-- Title unescaping leaves the url unchanged. -/
theorem unescapeTitleStep_url (c : EventCard) :
    (unescapeTitleStep c).url = c.url := by
  unfold unescapeTitleStep; repeat' (first | rfl | split)

/-- Description munging leaves the url unchanged. -/
theorem descMungeStep_url (c : EventCard) : (descMungeStep c).url = c.url := by
  unfold descMungeStep; repeat' (first | rfl | split)

/-- Location unescaping leaves the url unchanged. -/
theorem unescapeLocStep_url (c : EventCard) : (unescapeLocStep c).url = c.url := by
  unfold unescapeLocStep; repeat' (first | rfl | split)

/-- What the image-resolution step does to the image field. -/
theorem imageResolveStep_image (c : EventCard) :
    (imageResolveStep c).image =
      (match c.image with
       | none => none
       | some img =>
         if img ≠ "" && pyStartsWith img "/" then some (urljoin_abs c.url img)
         else some img) := by
  unfold imageResolveStep
  repeat' (first | rfl | split)
  all_goals simp_all

/-- What the cleanup block as a whole does to the image field. -/
theorem finalizeClean_image (c : EventCard) :
    (finalizeClean c).image =
      (match stripOptField c.image with
       | none => none
       | some s => some (if pyStartsWith s "/" then urljoin_abs c.url s else s)) := by
  unfold finalizeClean
  rw [cwStep_image, imageResolveStep_image]
  rw [unescapeLocStep_image, descMungeStep_image, unescapeTitleStep_image,
    unescapeLocStep_url, descMungeStep_url, unescapeTitleStep_url]
  show (match (stripAllStep c).image with
       | none => none
       | some img =>
         if img ≠ "" && pyStartsWith img "/" then
           some (urljoin_abs (stripAllStep c).url img)
         else some img) = _
  have h1 : (stripAllStep c).image = stripOptField c.image := rfl
  have h2 : (stripAllStep c).url = c.url := rfl
  rw [h1, h2]
  cases hI : stripOptField c.image with
  | none => rfl
  | some s =>
    have hs : s ≠ "" := stripOptField_some_ne _ _ hI
    simp only [hs, ne_eq, not_false_iff, decide_True, Bool.true_and]
    by_cases hp : pyStartsWith s "/" = true
    · simp [hp]
    · simp [hp]

/-- The blocked-keyword check leaves the image unchanged. -/
theorem finalize_image (c : EventCard) : (finalize c).image = (finalizeClean c).image := by
  unfold finalize
  cases h8 : (finalizeClean c).title with
  | none => simp only [h8]
  | some t =>
    simp only [h8]
    split <;> rfl

/-- C5 amended: the image field of the record built by `parse_event` is
the merged image value trimmed, resolved against the page URL exactly when
it starts with `/` (root-relative or protocol-relative); any other
relative form is returned as-is. -/
theorem C5_amended (sd : SearchDates) (url source : String)
    (extracted : Option PartialFields) (soup : Soup) :
    (buildCard sd url source extracted soup).image =
      (match stripOptField ((preFinalCard sd url source extracted soup).image) with
       | none => none
       | some s => some (if pyStartsWith s "/" then urljoin_abs url s else s)) := by
  have hurl : (preFinalCard sd url source extracted soup).url = url := by
    unfold preFinalCard
    rw [textStages_url, ogStage_url, nxStage_url, ldStage_url, stage1_url]
  unfold buildCard
  rw [finalize_image, finalizeClean_image]
  show (match stripOptField ((preFinalCard sd url source extracted soup).image) with
       | none => none
       | some s =>
         some (if pyStartsWith s "/" then
           urljoin_abs (preFinalCard sd url source extracted soup).url s else s)) = _
  rw [hurl]

/-- C5 counterexample: an extracted image that is a relative reference not
starting with `/` is returned unresolved (still relative), contradicting
the claim that every relative image is resolved to an absolute URL. -/
theorem C5_counterexample :
    metaOf soupRelImage "og:image" = some "img/pic.jpg" ∧
      (buildCard sdNone "https://e.com/a/b" "requests" none soupRelImage).image =
        some "img/pic.jpg" ∧
      pyIn "://" "img/pic.jpg" = false :=
  ⟨rfl, by decide, by decide⟩

/-- When no title is set yet, the OpenGraph stage resolves the title from
the `itemprop="name"` element first, then `og:title`/`twitter:title`, then
the page `<title>`. -/
theorem ogStage_title_of_empty (soup : Soup) (c : EventCard)
    (h : truthyS c.title = false) :
    (ogStage soup c).title =
      pyOr (itempropResolved soup)
        (pyOr (extract_open_graph soup).title soup.pageTitle) := by
  unfold ogStage itempropResolved
  simp only [h, Bool.false_eq_true, if_false]
  cases hi : soup.itempropName with
  | none =>
    show pyOr c.title _ = _
    rw [pyOr_falsy _ _ h]
    rfl
  | some txt =>
    by_cases htxt : txt = ""
    · subst htxt
      simp [pyOr, truthyS]
    · simp [htxt, pyOr, truthyS]

/-- C8 amended: when no earlier strategy produced a title, the title at
the OpenGraph stage is taken from an `itemprop="name"` element first; only
if that is absent (or empty) from `og:title`/`twitter:title`, and only
then from the page `<title>` element. -/
theorem C8_amended (sd : SearchDates) (url source : String)
    (extracted : Option PartialFields) (soup : Soup)
    (h : truthyS ((stageCard sd url source extracted soup 2).title) = false) :
    (stageCard sd url source extracted soup 3).title =
      pyOr (itempropResolved soup)
        (pyOr (extract_open_graph soup).title soup.pageTitle) :=
  ogStage_title_of_empty soup _ h

/-- Witness for the amended C8 on a page carrying both an itemprop name
and an `og:title`. -/
theorem C8_amended_witness :
    truthyS ((stageCard sdNone "https://e.com" "requests" none soupItempropOg 2).title)
        = false ∧
      (stageCard sdNone "https://e.com" "requests" none soupItempropOg 3).title =
        pyOr (itempropResolved soupItempropOg)
          (pyOr (extract_open_graph soupItempropOg).title soupItempropOg.pageTitle) :=
  ⟨by decide,
    C8_amended sdNone "https://e.com" "requests" none soupItempropOg (by decide)⟩

/-- C8 counterexample: with an `itemprop="name"` element reading `A` and
an `og:title` meta tag reading `B` and no earlier strategy producing a
title, the final title is `A`, not the `og:title` value `B` the claim
requires. -/
theorem C8_counterexample :
    metaOf soupItempropOg "og:title" = some "B" ∧
      soupItempropOg.itempropName = some "A" ∧
      (buildCard sdNone "https://e.com" "requests" none soupItempropOg).title =
        some "A" :=
  ⟨rfl, rfl, by decide⟩

/-- Reading back a rendered digit. -/
theorem readDigit_dch (d : Nat) (h : d < 10) : readDigit (dch d) = some d := by
  have key : ∀ e, e < 10 → readDigit (dch e) = some e := by decide
  exact key d h

/-- Reading back a two-digit zero-padded number. -/
theorem read2_pads (n : Nat) (h : n < 100) :
    read2 (dch (n / 10 % 10)) (dch (n % 10)) = some n := by
  unfold read2
  rw [readDigit_dch _ (Nat.mod_lt _ (by norm_num)),
    readDigit_dch _ (Nat.mod_lt _ (by norm_num))]
  show some (10 * (n / 10 % 10) + n % 10) = some n
  congr 1
  omega

/-- Reading back a four-digit zero-padded number. -/
theorem read4_pads (n : Nat) (h : n < 10000) :
    read4 (dch (n / 1000 % 10)) (dch (n / 100 % 10)) (dch (n / 10 % 10))
      (dch (n % 10)) = some n := by
  unfold read4
  rw [readDigit_dch _ (Nat.mod_lt _ (by norm_num)),
    readDigit_dch _ (Nat.mod_lt _ (by norm_num)),
    readDigit_dch _ (Nat.mod_lt _ (by norm_num)),
    readDigit_dch _ (Nat.mod_lt _ (by norm_num))]
  show some (1000 * (n / 1000 % 10) + 100 * (n / 100 % 10) + 10 * (n / 10 % 10) + n % 10)
    = some n
  congr 1
  omega

/-- The rendered character list, element by element. -/
theorem renderNaiveL_explicit (dt : IsoDT) :
    renderNaiveL dt =
      [dch (dt.year / 1000 % 10), dch (dt.year / 100 % 10), dch (dt.year / 10 % 10),
       dch (dt.year % 10), '-', dch (dt.month / 10 % 10), dch (dt.month % 10), '-',
       dch (dt.day / 10 % 10), dch (dt.day % 10), 'T', dch (dt.hour / 10 % 10),
       dch (dt.hour % 10), ':', dch (dt.minute / 10 % 10), dch (dt.minute % 10), ':',
       dch (dt.second / 10 % 10), dch (dt.second % 10)] := rfl

/-- Round trip: the parser accepts exactly what the renderer produced,
as a naive microsecond-zero date-time. -/
theorem isoparse_render (dt : IsoDT) (hv : ValidDT dt) :
    isoparseChars (renderNaiveL dt) =
      some ⟨dt.year, dt.month, dt.day, dt.hour, dt.minute, dt.second, 0, none⟩ := by
  obtain ⟨hy, hm1, hm2, hd1, hd2, hh, hmi, hs⟩ := hv
  rw [renderNaiveL_explicit]
  show isoparseChars _ = _
  unfold isoparseChars
  simp only []
  rw [read4_pads _ hy, read2_pads _ (by omega), read2_pads _ (by omega)]
  simp only [hm1, hm2, hd1, hd2, decide_True, Bool.true_and, Bool.and_self, if_true]
  unfold parseTimePart
  simp only []
  rw [read2_pads _ (by omega), read2_pads _ (by omega), read2_pads _ (by omega)]
  simp only [hh, hmi, hs, decide_True, Bool.true_and, Bool.and_self, if_true]
  rfl

/-- A parsed digit is at most nine. -/
theorem readDigit_le (c : Char) (d : Nat) (h : readDigit c = some d) : d ≤ 9 := by
  unfold readDigit at h
  split at h
  · rename_i hc
    have hd := Option.some_inj.1 h
    simp only [Bool.and_eq_true, decide_eq_true_eq] at hc
    omega
  · simp at h

/-- A four-digit read is below 10000. -/
theorem read4_lt (a b c d : Char) (y : Nat) (h : read4 a b c d = some y) : y < 10000 := by
  unfold read4 at h
  split at h
  · rename_i x1 x2 x3 x4 h1 h2 h3 h4
    have := readDigit_le _ _ h1
    have := readDigit_le _ _ h2
    have := readDigit_le _ _ h3
    have := readDigit_le _ _ h4
    have hy := Option.some_inj.1 h
    omega
  · simp at h

/-- The fraction/zone parser keeps the date-time components it was
given. -/
theorem parseFracTz_fields (y mo da hh mi ss : Nat) (l : List Char) (dt : IsoDT)
    (h : parseFracTz y mo da hh mi ss l = some dt) :
    dt.year = y ∧ dt.month = mo ∧ dt.day = da ∧
      dt.hour = hh ∧ dt.minute = mi ∧ dt.second = ss := by
  unfold parseFracTz at h
  split at h
  · obtain rfl := Option.some_inj.1 h
    exact ⟨rfl, rfl, rfl, rfl, rfl, rfl⟩
  · split at h
    · simp only [] at h
      split at h
      · simp at h
      · split at h
        · obtain rfl := Option.some_inj.1 h
          exact ⟨rfl, rfl, rfl, rfl, rfl, rfl⟩
        · simp at h
    · split at h
      · obtain rfl := Option.some_inj.1 h
        exact ⟨rfl, rfl, rfl, rfl, rfl, rfl⟩
      · simp at h

/-- The time parser keeps the date components and bounds the time
components. -/
theorem parseTimePart_valid (y mo da : Nat) (l : List Char) (dt : IsoDT)
    (h : parseTimePart y mo da l = some dt) :
    dt.year = y ∧ dt.month = mo ∧ dt.day = da ∧
      dt.hour ≤ 23 ∧ dt.minute ≤ 59 ∧ dt.second ≤ 59 := by
  unfold parseTimePart at h
  split at h
  · split at h
    · split at h
      · rename_i hh mi ss _ _ _
        split at h
        · rename_i hcond
          simp only [Bool.and_eq_true, decide_eq_true_eq] at hcond
          obtain ⟨hf1, hf2, hf3, hf4, hf5, hf6⟩ := parseFracTz_fields _ _ _ _ _ _ _ _ h
          exact ⟨hf1, hf2, hf3, by omega, by omega, by omega⟩
        · simp at h
      · simp at h
    · simp at h
  · simp at h

/-- Every parser output satisfies the `datetime` bounds. -/
theorem isoparse_valid (l : List Char) (dt : IsoDT) (h : isoparseChars l = some dt) :
    ValidDT dt := by
  unfold isoparseChars at h
  split at h
  · split at h
    · split at h
      · rename_i hy hmo hda
        split at h
        · rename_i hcond
          simp only [Bool.and_eq_true, decide_eq_true_eq] at hcond
          have hy4 := read4_lt _ _ _ _ _ hy
          obtain ⟨⟨⟨hc1, hc2⟩, hc3⟩, hc4⟩ := hcond
          split at h
          · obtain rfl := Option.some_inj.1 h
            refine ⟨?_, ?_, ?_, ?_, ?_, ?_, ?_, ?_⟩ <;> simp <;> omega
          · obtain ⟨hf1, hf2, hf3, hf4, hf5, hf6⟩ := parseTimePart_valid _ _ _ _ _ h
            exact ⟨by omega, by omega, by omega, by omega, by omega, hf4, hf5, hf6⟩
        · simp at h
      · simp at h
    · simp at h
  · simp at h

/-- Digit characters are not whitespace. -/
theorem pyWsChar_dch (n : Nat) (h : n < 10) : pyWsChar (dch n) = false := by
  have key : ∀ d, d < 10 → pyWsChar (dch d) = false := by decide
  exact key n h

/-- No character of a rendered date-time is whitespace. -/
theorem renderNaiveL_nonWs (dt : IsoDT) :
    ∀ c ∈ renderNaiveL dt, pyWsChar c = false := by
  intro c hc
  rw [renderNaiveL_explicit] at hc
  simp only [List.mem_cons, List.not_mem_nil, or_false] at hc
  rcases hc with rfl | rfl | rfl | rfl | rfl | rfl | rfl | rfl | rfl | rfl | rfl |
    rfl | rfl | rfl | rfl | rfl | rfl | rfl | rfl
  all_goals first
    | decide
    | exact pyWsChar_dch _ (Nat.mod_lt _ (by norm_num))

/-- The head surviving a `dropWhile` fails the predicate. -/
theorem dropWhile_head_false (p : Char → Bool) (m : List Char) (a : Char)
    (as : List Char) (h : m.dropWhile p = a :: as) : p a = false := by
  induction m with
  | nil => simp at h
  | cons b bs ih =>
    rw [List.dropWhile_cons] at h
    by_cases hb : p b = true
    · exact ih (by simpa [hb] using h)
    · simp only [hb, Bool.false_eq_true, if_false] at h
      obtain ⟨rfl, -⟩ := List.cons.injEq b bs a as ▸ h
      simpa using hb

/-- `dropWhile` keeps the last element of a list it does not empty. -/
theorem dropWhile_getLast? (p : Char → Bool) (m : List Char)
    (h : m.dropWhile p ≠ []) : (m.dropWhile p).getLast? = m.getLast? := by
  induction m with
  | nil => simp at h
  | cons b bs ih =>
    rw [List.dropWhile_cons]
    rw [List.dropWhile_cons] at h
    by_cases hb : p b = true
    · simp only [hb, if_true] at h ⊢
      rw [ih h]
      cases hbs : bs with
      | nil => rw [hbs] at h; simp [List.dropWhile] at h
      | cons c cs => simp [List.getLast?_cons_cons]
    · simp [hb]

/-- Trimming fixes a list with non-whitespace ends. -/
theorem pyStripL_of_clean (m : List Char)
    (h1 : ∀ a as, m = a :: as → pyWsChar a = false)
    (h2 : ∀ a as, m.reverse = a :: as → pyWsChar a = false) :
    pyStripL m = m := by
  unfold pyStripL
  have e1 : m.dropWhile pyWsChar = m := by
    cases hm : m with
    | nil => rfl
    | cons a as =>
      rw [List.dropWhile_cons]
      simp [h1 a as hm]
  rw [e1]
  have e2 : m.reverse.dropWhile pyWsChar = m.reverse := by
    cases hm : m.reverse with
    | nil => rfl
    | cons a as =>
      rw [List.dropWhile_cons]
      simp [h2 a as hm]
  rw [e2, List.reverse_reverse]

/-- Trimming is idempotent on character lists. -/
theorem pyStripL_idem (l : List Char) : pyStripL (pyStripL l) = pyStripL l := by
  apply pyStripL_of_clean
  · intro a as h
    -- the head of the stripped list is the last of the left-trimmed reverse scan
    unfold pyStripL at h
    have h' : ((l.dropWhile pyWsChar).reverse.dropWhile pyWsChar).getLast? = some a := by
      rw [← List.head?_reverse]
      simp [h]
    by_cases hne : (l.dropWhile pyWsChar).reverse.dropWhile pyWsChar = []
    · rw [hne] at h'
      simp at h'
    · rw [dropWhile_getLast? _ _ hne] at h'
      rw [List.getLast?_reverse] at h'
      cases hd : l.dropWhile pyWsChar with
      | nil => rw [hd] at h'; simp at h'
      | cons b bs =>
        rw [hd] at h'
        have hb : pyWsChar b = false := dropWhile_head_false _ _ _ _ hd
        have : b = a := by simpa [List.head?] using h'
        exact this ▸ hb
  · intro a as h
    unfold pyStripL at h
    rw [List.reverse_reverse] at h
    exact dropWhile_head_false _ _ _ _ h

/-- Python `str.strip` is idempotent. -/
theorem pyStrip_idem (s : String) : pyStrip (pyStrip s) = pyStrip s := by
  unfold pyStrip
  exact congrArg String.mk (pyStripL_idem s.data)

/-- A rendered date-time is already trimmed. -/
theorem pyStrip_renderNaive (dt : IsoDT) :
    pyStrip (renderNaive dt) = renderNaive dt := by
  unfold pyStrip renderNaive
  apply congrArg String.mk
  apply pyStripL_of_clean
  · intro a as h
    have h' : renderNaiveL dt = a :: as := h
    exact renderNaiveL_nonWs dt a (by rw [h']; exact List.mem_cons_self a as)
  · intro a as h
    have h' : (renderNaiveL dt).reverse = a :: as := h
    exact renderNaiveL_nonWs dt a
      (List.mem_reverse.1 (by rw [h']; exact List.mem_cons_self a as))

/-- On a parseable string the normalizer returns the naive
re-serialization. -/
theorem normalize_parse (s : String) (dt : IsoDT) (h : isoparse? s = some dt) :
    normalize_iso_no_tz (some s) =
      some (renderNaive { dt with micro := 0, tzMin := none }) := by
  have hne : s ≠ "" := by
    rintro rfl
    simp [isoparse?, isoparseChars] at h
  simp only [normalize_iso_no_tz]
  rw [if_neg hne, h]
  rfl

/-- Dropping zone and microseconds preserves validity. -/
theorem valid_naive (dt : IsoDT) (hv : ValidDT dt) :
    ValidDT { dt with micro := 0, tzMin := none } := by
  obtain ⟨a, b, c, d, e, f, g, h⟩ := hv
  exact ⟨a, b, c, d, e, f, g, h⟩

/-- A rendered date-time is never the empty string. -/
theorem renderNaive_ne_empty (dt : IsoDT) : renderNaive dt ≠ "" := by
  intro h
  have h' : renderNaiveL dt = ([] : List Char) := congrArg String.data h
  rw [renderNaiveL_explicit] at h'
  simp at h'

/-- A rendered valid naive date-time is a fixed point of the
normalizer. -/
theorem normalize_render_fix (dt : IsoDT) (hv : ValidDT dt) :
    normalize_iso_no_tz (some (renderNaive dt)) = some (renderNaive dt) := by
  simp only [normalize_iso_no_tz]
  rw [if_neg (renderNaive_ne_empty dt)]
  rw [show isoparse? (renderNaive dt) =
    some ⟨dt.year, dt.month, dt.day, dt.hour, dt.minute, dt.second, 0, none⟩ from
    isoparse_render dt hv]
  rfl

/-- The normalizer applied twice is a fixed point of the normalizer: a
third application changes nothing. -/
theorem normalize_sq_fix (x : Option String) :
    normalize_iso_no_tz (normalize_iso_no_tz (normalize_iso_no_tz x)) =
      normalize_iso_no_tz (normalize_iso_no_tz x) := by
  cases x with
  | none => rfl
  | some s =>
    by_cases hs : s = ""
    · subst hs; rfl
    · cases hp : isoparse? s with
      | some dt =>
        have h1 := normalize_parse s dt hp
        have hv := valid_naive dt (isoparse_valid s.data dt hp)
        rw [h1, normalize_render_fix _ hv, normalize_render_fix _ hv]
      | none =>
        have h1 : normalize_iso_no_tz (some s) =
            if pyStrip s = "" then none else some (pyStrip s) := by
          simp only [normalize_iso_no_tz]
          rw [if_neg hs, hp]
        by_cases ht : pyStrip s = ""
        · rw [h1, if_pos ht]
          rfl
        · rw [h1, if_neg ht]
          cases hp2 : isoparse? (pyStrip s) with
          | some dt2 =>
            have h2 := normalize_parse (pyStrip s) dt2 hp2
            rw [h2, normalize_render_fix _ (valid_naive dt2 (isoparse_valid _ dt2 hp2))]
          | none =>
            have h2 : normalize_iso_no_tz (some (pyStrip s)) = some (pyStrip s) := by
              simp only [normalize_iso_no_tz]
              rw [if_neg ht, hp2]
              simp [pyStrip_idem, ht]
            rw [h2, h2]

/-- C6 counterexample: `normalize_iso_no_tz` is not idempotent. The
string with a leading space fails `isoparse` (so the first application
merely trims it), but the trimmed form parses, so a second application
produces the expanded midnight form. The real `dateutil` parser behaves
identically on both strings. -/
theorem C6_counterexample :
    normalize_iso_no_tz (some " 2024-01-01") = some "2024-01-01" ∧
      normalize_iso_no_tz (normalize_iso_no_tz (some " 2024-01-01")) =
        some "2024-01-01T00:00:00" ∧
      some "2024-01-01T00:00:00" ≠ some "2024-01-01" :=
  ⟨by decide, by decide, by decide⟩

/-- C6 amended: date normalization is idempotent after the second
application (`normalize ∘ normalize` is a fixed point of `normalize`;
idempotence of a single application fails only on strings that parse
after trimming but not before), and it is timezone-invariant: a
timezone-aware ISO date-time string and its wall-clock equivalent with
the offset removed normalize to the same naive ISO string. -/
theorem C6_amended :
    (∀ v : Option String,
      normalize_iso_no_tz (normalize_iso_no_tz (normalize_iso_no_tz v)) =
        normalize_iso_no_tz (normalize_iso_no_tz v)) ∧
    (∀ (s t : String) (dt : IsoDT) (off : Int),
      isoparse? s = some dt → dt.tzMin = some off →
      isoparse? t = some { dt with tzMin := none } →
      normalize_iso_no_tz (some s) = normalize_iso_no_tz (some t)) := by
  constructor
  · exact normalize_sq_fix
  · intro s t dt off h1 _h2 h3
    rw [normalize_parse s dt h1, normalize_parse t _ h3]

/-- Witness for the amended C6: the idempotence clause at the
counterexample string, and the timezone clause at a concrete aware/naive
pair. -/
theorem C6_amended_witness :
    (normalize_iso_no_tz (normalize_iso_no_tz (normalize_iso_no_tz (some " 2024-01-01"))) =
      normalize_iso_no_tz (normalize_iso_no_tz (some " 2024-01-01"))) ∧
    (isoparse? "2024-01-01T10:00:00+05:00" =
        some ⟨2024, 1, 1, 10, 0, 0, 0, some 300⟩ ∧
      isoparse? "2024-01-01T10:00:00" = some ⟨2024, 1, 1, 10, 0, 0, 0, none⟩ ∧
      normalize_iso_no_tz (some "2024-01-01T10:00:00+05:00") =
        normalize_iso_no_tz (some "2024-01-01T10:00:00")) :=
  ⟨C6_amended.1 (some " 2024-01-01"),
    by decide, by decide,
    C6_amended.2 "2024-01-01T10:00:00+05:00" "2024-01-01T10:00:00"
      ⟨2024, 1, 1, 10, 0, 0, 0, some 300⟩ 300 (by decide) (by decide) (by decide)⟩

/-- A fixed point of the date normalizer is already trimmed. -/
theorem stable_strip (v : String) (h : normalize_iso_no_tz (some v) = some v) :
    pyStrip v = v := by
  by_cases hv : v = ""
  · subst hv
    simp [normalize_iso_no_tz] at h
  · simp only [normalize_iso_no_tz] at h
    rw [if_neg hv] at h
    cases hp : isoparse? v with
    | some dt =>
      rw [hp] at h
      have hvr : to_naive_iso dt = v := Option.some_inj.1 h
      rw [← hvr]
      exact pyStrip_renderNaive _
    | none =>
      rw [hp] at h
      by_cases ht : pyStrip v = ""
      · simp [ht] at h
      · simp only [ht, Bool.false_eq_true, if_false] at h
        exact Option.some_inj.1 (by simpa using h)

/-- A kept value is non-empty. -/
theorem keep_ne (f : CardField) (v : String) (hk : keepF f v) : v ≠ "" := by
  cases f <;> simp only [keepF] at hk
  all_goals first
    | exact hk.1
    | (intro hv; exact hk (by simp [hv, pyStrip, pyStripL]))

/-- A normalization-stable date value is already trimmed. -/
theorem keep_strip_dates (v : String)
    (hk : normalize_iso_no_tz (some v) = some v) : pyStrip v = v :=
  stable_strip v hk

/-- A non-empty left operand wins a Python `or`. -/
theorem pyOr_keep (v : String) (b : Option String) (hv : v ≠ "") :
    pyOr (some v) b = some v :=
  pyOr_truthy _ _ (by simpa [truthyS] using hv)

/-- The date-normalization pass preserves kept fields. -/
theorem normDates_keep (c : EventCard) (f : CardField) (v : String)
    (h : getF f c = some v) (hk : keepF f v) : getF f (normDates c) = some v := by
  cases f <;> simp only [getF, normDates] at h ⊢ <;> first
    | exact h
    | (rw [h]; exact hk.2)

/-- The JSON-LD stage preserves kept fields. -/
theorem ldStage_keep (soup : Soup) (c : EventCard) (f : CardField) (v : String)
    (h : getF f c = some v) (hk : keepF f v) : getF f (ldStage soup c) = some v := by
  have hv := keep_ne f v hk
  unfold ldStage
  cases hld : extract_from_ld_json soup.ldJsonBlocks with
  | none => exact h
  | some item =>
    have hfill : getF f (normDates { c with
        title := pyOr c.title (jStrField item "name")
        description := pyOr c.description (jStrField item "description")
        start_date := pyOr c.start_date (jStrField item "startDate")
        end_date := pyOr c.end_date (jStrField item "endDate") }) = some v := by
      apply normDates_keep _ _ _ _ hk
      cases f <;> simp only [getF] at h ⊢ <;> first
        | exact h
        | (rw [h]; exact pyOr_keep v _ hv)
    cases f <;> simp only [getF] at hfill ⊢ <;>
      unfold ldImageFill ldLocationFill <;>
      repeat' (first | exact hfill | (rw [hfill]; exact pyOr_keep v _ hv) | split)

/-- The framework-JSON stage preserves kept fields. -/
theorem nxStage_keep (soup : Soup) (c : EventCard) (f : CardField) (v : String)
    (h : getF f c = some v) (hk : keepF f v) : getF f (nxStage soup c) = some v := by
  have hv := keep_ne f v hk
  unfold nxStage
  cases hnx : extract_from_next_data_generic soup.nextData with
  | none => exact h
  | some nx =>
    apply normDates_keep _ _ _ _ hk
    cases f <;> simp only [getF] at h ⊢ <;> (rw [h]; exact pyOr_keep v _ hv)

/-- The OpenGraph stage preserves kept fields. -/
theorem ogStage_keep (soup : Soup) (c : EventCard) (f : CardField) (v : String)
    (h : getF f c = some v) (hk : keepF f v) : getF f (ogStage soup c) = some v := by
  have hv := keep_ne f v hk
  unfold ogStage
  cases f <;> simp only [getF] at h ⊢ <;>
    repeat' (first
      | exact h
      | (rw [h]; exact pyOr_keep v _ hv)
      | split
      | dsimp only)
  all_goals simp_all [truthyS]

/-- The description fallback preserves kept fields. -/
theorem descFillStep_keep (m : Option String) (c : EventCard) (f : CardField)
    (v : String) (h : getF f c = some v) (hk : keepF f v) :
    getF f (descFillStep m c) = some v := by
  have hv := keep_ne f v hk
  unfold descFillStep
  cases f <;> simp only [getF] at h ⊢ <;>
    repeat' (first | exact h | split)
  all_goals simp_all [truthyS]

/-- The `time[datetime]` fill preserves kept fields. -/
theorem timeTagStep_keep (soup : Soup) (c : EventCard) (f : CardField)
    (v : String) (h : getF f c = some v) (hk : keepF f v) :
    getF f (timeTagStep soup c) = some v := by
  have hv := keep_ne f v hk
  unfold timeTagStep
  cases f <;> simp only [getF] at h ⊢ <;>
    repeat' (first | exact h | split)
  all_goals simp_all [truthyS]

/-- The aria-label fill preserves kept fields. -/
theorem ariaStep_keep (sd : SearchDates) (soup : Soup) (c : EventCard) (f : CardField)
    (v : String) (h : getF f c = some v) (hk : keepF f v) :
    getF f (ariaStep sd soup c) = some v := by
  have hv := keep_ne f v hk
  unfold ariaStep
  cases f <;> simp only [getF] at h ⊢ <;>
    repeat' (first | exact h | split)
  all_goals simp_all [truthyS]

/-- The text date fallback preserves kept fields. -/
theorem textDateStep_keep (sd : SearchDates) (fb : String) (c : EventCard)
    (f : CardField) (v : String) (h : getF f c = some v) (hk : keepF f v) :
    getF f (textDateStep sd fb c) = some v := by
  have hv := keep_ne f v hk
  unfold textDateStep
  cases f <;> simp only [getF] at h ⊢ <;>
    repeat' (first | exact h | split)
  all_goals simp_all [truthyS]

/-- The `itemprop` location fill preserves kept fields. -/
theorem itempropLocStep_keep (soup : Soup) (c : EventCard) (f : CardField)
    (v : String) (h : getF f c = some v) (hk : keepF f v) :
    getF f (itempropLocStep soup c) = some v := by
  have hv := keep_ne f v hk
  unfold itempropLocStep
  cases f <;> simp only [getF] at h ⊢ <;>
    repeat' (first | exact h | split)
  all_goals simp_all [truthyS]

/-- The `data-testid` location fill preserves kept fields. -/
theorem testidLocStep_keep (soup : Soup) (c : EventCard) (f : CardField)
    (v : String) (h : getF f c = some v) (hk : keepF f v) :
    getF f (testidLocStep soup c) = some v := by
  have hv := keep_ne f v hk
  unfold testidLocStep
  cases f <;> simp only [getF] at h ⊢ <;>
    repeat' (first | exact h | split)
  all_goals simp_all [truthyS]

/-- The OpenGraph location fill preserves kept fields. -/
theorem ogPartsLocStep_keep (soup : Soup) (c : EventCard) (f : CardField)
    (v : String) (h : getF f c = some v) (hk : keepF f v) :
    getF f (ogPartsLocStep soup c) = some v := by
  have hv := keep_ne f v hk
  unfold ogPartsLocStep
  cases f <;> simp only [getF] at h ⊢ <;>
    repeat' (first | exact h | split | dsimp only)
  all_goals simp_all [truthyS]

/-- The extruct location fallback preserves kept fields. -/
theorem extructLocStep_keep (soup : Soup) (c : EventCard) (f : CardField)
    (v : String) (h : getF f c = some v) (hk : keepF f v) :
    getF f (extructLocStep soup c) = some v := by
  have hv := keep_ne f v hk
  unfold extructLocStep
  cases f <;> simp only [getF] at h ⊢ <;>
    repeat' (first | exact h | split)
  all_goals simp_all [truthyS]

/-- The text-heuristic stages preserve kept fields. -/
theorem textStages_keep (sd : SearchDates) (soup : Soup) (c : EventCard)
    (f : CardField) (v : String) (h : getF f c = some v) (hk : keepF f v) :
    getF f (textStages sd soup c) = some v := by
  unfold textStages
  exact extructLocStep_keep _ _ _ _
    (ogPartsLocStep_keep _ _ _ _
      (testidLocStep_keep _ _ _ _
        (itempropLocStep_keep _ _ _ _
          (textDateStep_keep _ _ _ _ _
            (ariaStep_keep _ _ _ _ _
              (timeTagStep_keep _ _ _ _
                (descFillStep_keep _ _ _ _ h hk) hk) hk) hk) hk) hk) hk) hk

/-- A kept value remains non-empty after trimming. -/
theorem keep_strip_ne (f : CardField) (v : String) (hk : keepF f v) :
    pyStrip v ≠ "" := by
  cases f <;> simp only [keepF] at hk
  all_goals first
    | exact hk
    | (rw [stable_strip v hk.2]; exact hk.1)

/-- The trim pass turns a kept field into its trimmed value. -/
theorem stripAllStep_keep (c : EventCard) (f : CardField) (v : String)
    (h : getF f c = some v) (hk : keepF f v) :
    getF f (stripAllStep c) = some (pyStrip v) := by
  have hs := keep_strip_ne f v hk
  cases f <;> simp only [getF, stripAllStep] at h ⊢ <;> rw [h] <;>
    simp [stripOptField, hs]

/-- Title unescaping on a present non-empty title. -/
theorem unescapeTitleStep_title (c : EventCard) (t : String)
    (h : c.title = some t) (ht : t ≠ "") :
    (unescapeTitleStep c).title = some (html_unescape t) := by
  unfold unescapeTitleStep
  rw [h]
  simp [ht]

/-- Description munging on a present non-empty description. -/
theorem descMungeStep_desc (c : EventCard) (d : String)
    (h : c.description = some d) (hd : d ≠ "") :
    (descMungeStep c).description = some (finalizeDescVal d) := by
  unfold descMungeStep
  rw [h]
  simp [hd]

/-- Location unescaping on a present non-empty location. -/
theorem unescapeLocStep_loc (c : EventCard) (l : String)
    (h : c.location = some l) (hl : l ≠ "") :
    (unescapeLocStep c).location = some (html_unescape l) := by
  unfold unescapeLocStep
  rw [h]
  simp [hl]

/-- Image resolution on a present non-empty image. -/
theorem imageResolveStep_img (c : EventCard) (s : String)
    (h : c.image = some s) (hs : s ≠ "") :
    (imageResolveStep c).image =
      some (if pyStartsWith s "/" then urljoin_abs c.url s else s) := by
  rw [imageResolveStep_image, h]
  simp only [hs, ne_eq, not_false_iff, decide_True, Bool.true_and]
  by_cases hp : pyStartsWith s "/" = true <;> simp [hp]

/-- Title unescaping leaves every other field unchanged. -/
theorem unescapeTitleStep_keepOther (c : EventCard) (f : CardField)
    (hf : f ≠ CardField.title) :
    getF f (unescapeTitleStep c) = getF f c := by
  cases f <;> first
    | exact absurd rfl hf
    | (unfold unescapeTitleStep; cases c.title with
        | none => rfl
        | some t => simp only [getF]; split <;> rfl)

/-- Description munging leaves every other field unchanged. -/
theorem descMungeStep_keepOther (c : EventCard) (f : CardField)
    (hf : f ≠ CardField.description) :
    getF f (descMungeStep c) = getF f c := by
  cases f <;> first
    | exact absurd rfl hf
    | (unfold descMungeStep; cases c.description with
        | none => rfl
        | some t => simp only [getF]; split <;> rfl)

/-- Location unescaping leaves every other field unchanged. -/
theorem unescapeLocStep_keepOther (c : EventCard) (f : CardField)
    (hf : f ≠ CardField.location) :
    getF f (unescapeLocStep c) = getF f c := by
  cases f <;> first
    | exact absurd rfl hf
    | (unfold unescapeLocStep; cases c.location with
        | none => rfl
        | some t => simp only [getF]; split <;> rfl)

/-- Image resolution leaves every other field unchanged. -/
theorem imageResolveStep_keepOther (c : EventCard) (f : CardField)
    (hf : f ≠ CardField.image) :
    getF f (imageResolveStep c) = getF f c := by
  cases f <;> first
    | exact absurd rfl hf
    | (unfold imageResolveStep; cases c.image with
        | none => rfl
        | some t => simp only [getF]; split <;> rfl)

/-- The whitespace pass collapses the three text fields and keeps the
rest. -/
theorem cwStep_getF (c : EventCard) (f : CardField) :
    getF f (cwStep c) =
      (match f with
       | .title => clean_whitespace c.title
       | .description => clean_whitespace c.description
       | .location => clean_whitespace c.location
       | g => getF g c) := by
  cases f <;> rfl

/-- The blocked-keyword check changes only the source field. -/
theorem finalize_getF (c : EventCard) (f : CardField) :
    getF f (finalize c) = getF f (finalizeClean c) := by
  unfold finalize
  cases h8 : (finalizeClean c).title with
  | none => simp only [h8]
  | some t =>
    simp only [h8]
    split
    · cases f <;> simp [getF, h8]
    · rfl

/-- Field-projection form of the title unescaping equation. -/
theorem uT_title (c : EventCard) (t : String)
    (h : getF CardField.title c = some t) (ht : t ≠ "") :
    getF CardField.title (unescapeTitleStep c) = some (html_unescape t) :=
  unescapeTitleStep_title c t h ht

/-- Field-projection form of the description munging equation. -/
theorem dM_desc (c : EventCard) (d : String)
    (h : getF CardField.description c = some d) (hd : d ≠ "") :
    getF CardField.description (descMungeStep c) = some (finalizeDescVal d) :=
  descMungeStep_desc c d h hd

/-- Field-projection form of the location unescaping equation. -/
theorem uL_loc (c : EventCard) (l : String)
    (h : getF CardField.location c = some l) (hl : l ≠ "") :
    getF CardField.location (unescapeLocStep c) = some (html_unescape l) :=
  unescapeLocStep_loc c l h hl

/-- Field-projection form of the image resolution equation. -/
theorem iR_img (c : EventCard) (s : String)
    (h : getF CardField.image c = some s) (hs : s ≠ "") :
    getF CardField.image (imageResolveStep c) =
      some (if pyStartsWith s "/" then urljoin_abs c.url s else s) :=
  imageResolveStep_img c s h hs

/-- The whitespace pass on the title. -/
theorem cw_title (c : EventCard) :
    getF CardField.title (cwStep c) = clean_whitespace (getF CardField.title c) := rfl

/-- The whitespace pass on the description. -/
theorem cw_desc (c : EventCard) :
    getF CardField.description (cwStep c) =
      clean_whitespace (getF CardField.description c) := rfl

/-- The whitespace pass on the location. -/
theorem cw_loc (c : EventCard) :
    getF CardField.location (cwStep c) =
      clean_whitespace (getF CardField.location c) := rfl

/-- The whitespace pass keeps dates and image. -/
theorem cw_dates_img (c : EventCard) (f : CardField)
    (hf : f = CardField.start_date ∨ f = CardField.end_date ∨ f = CardField.image) :
    getF f (cwStep c) = getF f c := by
  rcases hf with rfl | rfl | rfl <;> rfl

/-- The trim pass keeps the url. -/
theorem sAll_url (c : EventCard) : (stripAllStep c).url = c.url := rfl

/-- The cleanup block maps a kept field value to its final
normalization. -/
theorem finalize_keep (c : EventCard) (f : CardField) (v : String)
    (h : getF f c = some v) (hk : keepF f v) :
    getF f (finalize c) = finalNormF f c.url v := by
  have hs := keep_strip_ne f v hk
  have h1 := stripAllStep_keep c f v h hk
  rw [finalize_getF]
  unfold finalizeClean
  cases f with
  | title =>
    rw [cw_title,
      imageResolveStep_keepOther _ _ (by decide),
      unescapeLocStep_keepOther _ _ (by decide),
      descMungeStep_keepOther _ _ (by decide),
      uT_title _ _ h1 hs]
    rfl
  | description =>
    rw [cw_desc,
      imageResolveStep_keepOther _ _ (by decide),
      unescapeLocStep_keepOther _ _ (by decide),
      dM_desc _ _ (by rw [unescapeTitleStep_keepOther _ _ (by decide)]; exact h1) hs]
    rfl
  | location =>
    rw [cw_loc,
      imageResolveStep_keepOther _ _ (by decide),
      uL_loc _ _ (by
        rw [descMungeStep_keepOther _ _ (by decide),
          unescapeTitleStep_keepOther _ _ (by decide)]
        exact h1) hs]
    rfl
  | image =>
    rw [cw_dates_img _ _ (by simp)]
    have hu : (unescapeLocStep (descMungeStep (unescapeTitleStep (stripAllStep c)))).url
        = c.url := by
      rw [unescapeLocStep_url, descMungeStep_url, unescapeTitleStep_url, sAll_url]
    rw [iR_img _ _ (by
        rw [unescapeLocStep_keepOther _ _ (by decide),
          descMungeStep_keepOther _ _ (by decide),
          unescapeTitleStep_keepOther _ _ (by decide)]
        exact h1) hs]
    rw [hu]
    rfl
  | start_date =>
    rw [cw_dates_img _ _ (by simp),
      imageResolveStep_keepOther _ _ (by decide),
      unescapeLocStep_keepOther _ _ (by decide),
      descMungeStep_keepOther _ _ (by decide),
      unescapeTitleStep_keepOther _ _ (by decide),
      h1, stable_strip v hk.2]
    rfl
  | end_date =>
    rw [cw_dates_img _ _ (by simp),
      imageResolveStep_keepOther _ _ (by decide),
      unescapeLocStep_keepOther _ _ (by decide),
      descMungeStep_keepOther _ _ (by decide),
      unescapeTitleStep_keepOther _ _ (by decide),
      h1, stable_strip v hk.2]
    rfl

/-- Fill-once persistence: a field holding a kept value after any stage
still holds it at the end of the strategies, and the returned record
holds its final normalization. -/
theorem fill_once_general (sd : SearchDates) (url source : String)
    (extracted : Option PartialFields) (soup : Soup) (f : CardField) (n : Nat)
    (v : String) (h : getF f (stageCard sd url source extracted soup n) = some v)
    (hk : keepF f v) :
    getF f (preFinalCard sd url source extracted soup) = some v ∧
      getF f (buildCard sd url source extracted soup) = finalNormF f url v := by
  have hpre : getF f (preFinalCard sd url source extracted soup) = some v := by
    match n with
    | 0 =>
      exact textStages_keep _ _ _ _ _
        (ogStage_keep _ _ _ _ (nxStage_keep _ _ _ _ (ldStage_keep _ _ _ _ h hk) hk) hk) hk
    | 1 =>
      exact textStages_keep _ _ _ _ _
        (ogStage_keep _ _ _ _ (nxStage_keep _ _ _ _ h hk) hk) hk
    | 2 => exact textStages_keep _ _ _ _ _ (ogStage_keep _ _ _ _ h hk) hk
    | 3 => exact textStages_keep _ _ _ _ _ h hk
    | m + 4 => exact h
  refine ⟨hpre, ?_⟩
  have hfin := finalize_keep _ f v hpre hk
  have hurl : (preFinalCard sd url source extracted soup).url = url := by
    unfold preFinalCard
    rw [textStages_url, ogStage_url, nxStage_url, ldStage_url, stage1_url]
  rw [hurl] at hfin
  exact hfin

/-- C1 amended: once a field of the record built by `parse_event` is set
to a value that is non-empty after trimming (and, for the date fields, a
fixed point of the date normalizer, which the first three stages
re-apply), no later strategy replaces it: it survives to the end of the
strategy chain and the returned record holds exactly its final
normalization. In particular an adapter title `X` survives a JSON-LD
Event named `Y`. -/
theorem C1_amended :
    (∀ (sd : SearchDates) (url source : String) (extracted : Option PartialFields)
        (soup : Soup) (f : CardField) (n : Nat) (v : String),
      getF f (stageCard sd url source extracted soup n) = some v → keepF f v →
      getF f (preFinalCard sd url source extracted soup) = some v ∧
        getF f (buildCard sd url source extracted soup) = finalNormF f url v) ∧
    (∀ (sd : SearchDates) (url source : String) (pf : PartialFields) (soup : Soup)
        (X : String),
      pf.title = some X → pyStrip X ≠ "" →
      (buildCard sd url source (some pf) soup).title =
        finalNormF CardField.title url X) := by
  constructor
  · exact fill_once_general
  · intro sd url source pf soup X hX hXs
    have hXne : X ≠ "" := by
      intro he
      exact hXs (by simp [he, pyStrip, pyStripL])
    have h0 : getF CardField.title (stageCard sd url source (some pf) soup 0) = some X := by
      simp only [stageCard, stage1, normDates, adapterFill, initCard, getF]
      rw [hX]
      exact pyOr_keep X _ hXne
    exact (fill_once_general sd url source (some pf) soup CardField.title 0 X h0 hXs).2

/-- Witness for the amended C1: adapter title `X` against a JSON-LD
Event named `Y` gives final title `X`. -/
theorem C1_amended_witness :
    getF CardField.title
        (stageCard sdNone "https://e.com" "requests"
          (some { title := some "X" }) soupLdY 0) = some "X" ∧
      keepF CardField.title "X" ∧
      getF CardField.title
          (buildCard sdNone "https://e.com" "requests"
            (some { title := some "X" }) soupLdY) =
        finalNormF CardField.title "https://e.com" "X" ∧
      finalNormF CardField.title "https://e.com" "X" = some "X" ∧
      extract_from_ld_json soupLdY.ldJsonBlocks =
        some (.obj [("@type", .str "Event"), ("name", .str "Y"),
          ("startDate", .str "2025-01-01")]) :=
  ⟨by decide, by show pyStrip "X" ≠ ""; decide,
    (C1_amended.1 sdNone "https://e.com" "requests" (some { title := some "X" })
      soupLdY CardField.title 0 "X" (by decide) (by show pyStrip "X" ≠ ""; decide)).2,
    by decide, rfl⟩

/-- C1 counterexample: the adapter sets `start_date` to the non-empty
string consisting of one space; the stage-level date normalization then
erases it (its normalization is `None`), and the JSON-LD strategy
refills the field, so the final record holds the later strategy's value
— the claim's fill-once property fails for values that are non-empty but
blank. -/
theorem C1_counterexample :
    (adapterFill (some { start_date := some " " })
        (initCard "https://e.com" "requests")).start_date = some " " ∧
      (" " ≠ "") ∧
      normalize_iso_no_tz (some " ") = none ∧
      (buildCard sdNone "https://e.com" "requests" (some { start_date := some " " })
          soupLdY).start_date = some "2025-01-01T00:00:00" :=
  ⟨rfl, by decide, by decide, by decide⟩
